import Mathlib

/-!
# Verification of the paircoded terminal-hosting agent core

A shallow embedding of the protocol codec (`protocol.rs`), the per-terminal
bridge (`bridge.rs`), the relay data-channel client (`relay.rs`), the control
channel and reconnect policy (`control.rs`), the terminal manager
(`terminal_manager.rs`) and the PTY adapter (`pty.rs`) of the `paircoded`
repository, together with proofs about them.

Rust byte strings (`&[u8]`, `Vec<u8>`) and Rust `String`s are modelled as
`List Nat` of byte values; `u16` fields as `Nat` (with explicit `< 2^16`
bounds where the wire format depends on them); `i32` as `Int`; and machine
arithmetic that can wrap carries an explicit `% 2^32`.
-/

set_option maxRecDepth 8192

namespace Paircoded

/-! ## Byte and digit utilities -/

/-- Byte values of an ASCII string literal (used for keys and fixed tokens). -/
def ascii (s : String) : List Nat := s.data.map (fun c => c.toNat)

/-- Is the byte an ASCII decimal digit? -/
def isDigitByte (b : Nat) : Bool := 48 ≤ b && b ≤ 57

/-- Decimal digits of `n`, least significant first, with structural fuel (the
fuel is an upper bound on the number of digits, so `natDigitsRev` below never
exhausts it). -/
def natDigitsRevF : Nat → Nat → List Nat
  | 0, n => [n]
  | f + 1, n => if n < 10 then [n] else (n % 10) :: natDigitsRevF f (n / 10)

/-- Decimal digits of `n`, least significant first. -/
def natDigitsRev (n : Nat) : List Nat := natDigitsRevF n n

theorem natDigitsRevF_fuel_irrel :
    ∀ f1 f2 n, n ≤ f1 → n ≤ f2 → natDigitsRevF f1 n = natDigitsRevF f2 n := by
  intro f1
  induction f1 with
  | zero =>
    intro f2 n h1 h2
    have : n = 0 := by omega
    subst this
    cases f2 with
    | zero => rfl
    | succ g => simp [natDigitsRevF]
  | succ f ih =>
    intro f2 n h1 h2
    cases f2 with
    | zero =>
      have : n = 0 := by omega
      subst this
      simp [natDigitsRevF]
    | succ g =>
      by_cases h : n < 10
      · simp [natDigitsRevF, h]
      · simp only [natDigitsRevF, if_neg h]
        have hd : n / 10 < n := Nat.div_lt_self (by omega) (by omega)
        rw [ih g (n / 10) (by omega) (by omega)]

/-- The defining recurrence of `natDigitsRev`. -/
theorem natDigitsRev_eq (n : Nat) :
    natDigitsRev n = if n < 10 then [n] else (n % 10) :: natDigitsRev (n / 10) := by
  by_cases h : n < 10
  · rw [if_pos h]
    cases n with
    | zero => rfl
    | succ m => simp [natDigitsRev, natDigitsRevF, h]
  · rw [if_neg h]
    cases n with
    | zero => omega
    | succ m =>
      show natDigitsRevF (m + 1) (m + 1) = _
      simp only [natDigitsRevF, if_neg h]
      exact congrArg (fun l => (m + 1) % 10 :: l)
        (natDigitsRevF_fuel_irrel m ((m + 1) / 10) ((m + 1) / 10) (by omega) (by omega))

/-- Decimal digits of `n`, most significant first. -/
def natDigits (n : Nat) : List Nat := (natDigitsRev n).reverse

/-- ASCII bytes of the decimal representation of `n` (as Rust `Display` / serde
prints unsigned integers). -/
def natAscii (n : Nat) : List Nat := (natDigits n).map (fun d => d + 48)

/-- ASCII bytes of the decimal representation of an `i32`/`Int`. -/
def intAscii (i : Int) : List Nat :=
  if i < 0 then 45 :: natAscii i.natAbs else natAscii i.toNat

/-- Value of a most-significant-first digit list. -/
def digitsVal (ds : List Nat) : Nat := ds.foldl (fun a d => 10 * a + d) 0

theorem digitsVal_append (ds : List Nat) (d : Nat) :
    digitsVal (ds ++ [d]) = 10 * digitsVal ds + d := by
  simp [digitsVal]

theorem natDigitsRev_nonempty (n : Nat) : natDigitsRev n ≠ [] := by
  rw [natDigitsRev_eq]
  split <;> simp

theorem digitsVal_natDigits (n : Nat) : digitsVal (natDigits n) = n := by
  induction n using Nat.strong_induction_on with
  | _ n ih =>
    unfold natDigits
    rw [natDigitsRev_eq]
    split
    · simp [digitsVal]
    · rename_i h
      have hlt : n / 10 < n := Nat.div_lt_self (by omega) (by omega)
      have := ih (n / 10) hlt
      unfold natDigits at this
      simp only [List.reverse_cons]
      rw [digitsVal_append, this]
      omega

theorem natDigitsRev_all_lt (n : Nat) : ∀ d ∈ natDigitsRev n, d < 10 := by
  induction n using Nat.strong_induction_on with
  | _ n ih =>
    rw [natDigitsRev_eq]
    split
    · rename_i h; intro d hd; simp at hd; omega
    · rename_i h
      intro d hd
      simp at hd
      rcases hd with h1 | h2
      · omega
      · exact ih (n / 10) (Nat.div_lt_self (by omega) (by omega)) d h2

theorem natDigits_all_lt (n : Nat) : ∀ d ∈ natDigits n, d < 10 := by
  intro d hd
  exact natDigitsRev_all_lt n d (by simpa [natDigits] using hd)

/-- The most significant digit of a positive `n` is nonzero (no decimal
representation hands the JSON writer a leading zero). -/
theorem natDigitsRev_getLast_ne_zero (n : Nat) (hn : 0 < n) :
    ∀ d, (natDigitsRev n).getLast? = some d → d ≠ 0 := by
  induction n using Nat.strong_induction_on with
  | _ n ih =>
    rw [natDigitsRev_eq]
    split
    · rename_i h
      intro d hd
      simp at hd
      omega
    · rename_i h
      intro d hd
      have hq : 0 < n / 10 := by omega
      have hlt : n / 10 < n := Nat.div_lt_self (by omega) (by omega)
      cases hxs : natDigitsRev (n / 10) with
      | nil => exact absurd hxs (natDigitsRev_nonempty (n / 10))
      | cons x xs =>
        rw [hxs, List.getLast?_cons_cons] at hd
        exact ih (n / 10) hlt hq d (by rw [hxs]; exact hd)

/-! ## JSON string escaping (serde_json serializer / parser semantics)

serde_json escapes `"` and `\`, uses the short escapes `\b \t \n \f \r`, and
writes the remaining control bytes below 0x20 as lowercase `\u00XX`; all other
bytes pass through untouched. -/

/-- Lowercase hex digit byte for a nibble, as serde_json's escape table emits. -/
def hexDigitByte (n : Nat) : Nat := if n < 10 then 48 + n else 87 + n

/-- Value of an ASCII hex digit (JSON accepts both cases in `\uXXXX`). -/
def hexVal (b : Nat) : Option Nat :=
  if 48 ≤ b ∧ b ≤ 57 then some (b - 48)
  else if 97 ≤ b ∧ b ≤ 102 then some (b - 87)
  else if 65 ≤ b ∧ b ≤ 70 then some (b - 55)
  else none

/-- Escape of a single byte inside a JSON string literal. -/
def escByte (b : Nat) : List Nat :=
  if b = 34 then [92, 34]
  else if b = 92 then [92, 92]
  else if b = 8 then [92, 98]
  else if b = 9 then [92, 116]
  else if b = 10 then [92, 110]
  else if b = 12 then [92, 102]
  else if b = 13 then [92, 114]
  else if b < 32 then [92, 117, 48, 48, hexDigitByte (b / 16), hexDigitByte (b % 16)]
  else [b]

/-- Escaped body of a JSON string literal. -/
def escapeBytes (s : List Nat) : List Nat := (s.map escByte).flatten

/-- A complete JSON string literal, quotes included. -/
def jsonStr (s : List Nat) : List Nat := 34 :: escapeBytes s ++ [34]

/-- UTF-8 bytes of a code point (for `\uXXXX` escapes met by the parser). -/
def utf8Enc (c : Nat) : List Nat :=
  if c < 128 then [c]
  else if c < 2048 then [192 + c / 64, 128 + c % 64]
  else if c < 65536 then [224 + c / 4096, 128 + c / 64 % 64, 128 + c % 64]
  else [240 + c / 262144, 128 + c / 4096 % 64, 128 + c / 64 % 64, 128 + c % 64]

/-- Combine four hex digits into a code point. -/
def hex4 (h1 h2 h3 h4 : Nat) : Option Nat :=
  match hexVal h1, hexVal h2, hexVal h3, hexVal h4 with
  | some a, some b, some c, some d => some (a * 4096 + b * 256 + c * 16 + d)
  | _, _, _, _ => none

/-- Prepend a byte to the string under construction. -/
def consStr (b : Nat) : Option (List Nat × List Nat) → Option (List Nat × List Nat)
  | some (s, r) => some (b :: s, r)
  | none => none

/-- Prepend a byte sequence to the string under construction. -/
def appendStr (pre : List Nat) : Option (List Nat × List Nat) → Option (List Nat × List Nat)
  | some (s, r) => some (pre ++ s, r)
  | none => none

mutual

/-- Read a JSON string body (after the opening quote): returns the decoded
bytes and the input after the closing quote.  Raw control bytes are an error,
as in serde_json. -/
def readStr : List Nat → Option (List Nat × List Nat)
  | [] => none
  | b :: rest =>
    if b = 34 then some ([], rest)
    else if b = 92 then readEsc rest
    else if b < 32 then none
    else consStr b (readStr rest)

/-- Read the character after a backslash. -/
def readEsc : List Nat → Option (List Nat × List Nat)
  | [] => none
  | c :: r =>
    if c = 34 then consStr 34 (readStr r)
    else if c = 92 then consStr 92 (readStr r)
    else if c = 47 then consStr 47 (readStr r)
    else if c = 98 then consStr 8 (readStr r)
    else if c = 102 then consStr 12 (readStr r)
    else if c = 110 then consStr 10 (readStr r)
    else if c = 114 then consStr 13 (readStr r)
    else if c = 116 then consStr 9 (readStr r)
    else if c = 117 then readHex r
    else none

/-- Read the four hex digits of a `\uXXXX` escape; a high surrogate must be
followed by a low surrogate, a lone surrogate is an error. -/
def readHex : List Nat → Option (List Nat × List Nat)
  | h1 :: h2 :: h3 :: h4 :: r =>
    match hex4 h1 h2 h3 h4 with
    | none => none
    | some cp =>
      if 55296 ≤ cp ∧ cp ≤ 56319 then readLowSurr cp r
      else if 56320 ≤ cp ∧ cp ≤ 57343 then none
      else appendStr (utf8Enc cp) (readStr r)
  | _ => none

/-- Read the low half of a surrogate pair. -/
def readLowSurr : Nat → List Nat → Option (List Nat × List Nat)
  | hi, 92 :: 117 :: g1 :: g2 :: g3 :: g4 :: r =>
    match hex4 g1 g2 g3 g4 with
    | none => none
    | some lo =>
      if 56320 ≤ lo ∧ lo ≤ 57343 then
        appendStr (utf8Enc (65536 + (hi - 55296) * 1024 + (lo - 56320))) (readStr r)
      else none
  | _, _ => none

end

theorem hexVal_hexDigitByte : ∀ x, x < 16 → hexVal (hexDigitByte x) = some x := by decide

/-- The parser inverts the escaper: reading an escaped string body followed by
the closing quote recovers the original bytes. -/
theorem readStr_escape (s : List Nat) : ∀ rest,
    readStr (escapeBytes s ++ 34 :: rest) = some (s, rest) := by
  induction s with
  | nil => intro rest; simp [escapeBytes, readStr]
  | cons b tail ih =>
    intro rest
    have hb : escapeBytes (b :: tail) = escByte b ++ escapeBytes tail := by
      simp [escapeBytes]
    rw [hb, List.append_assoc]
    unfold escByte
    split_ifs with h1 h2 h3 h4 h5 h6 h7 h8
    · subst h1; simp [readStr, readEsc, consStr, ih]
    · subst h2; simp [readStr, readEsc, consStr, ih]
    · subst h3; simp [readStr, readEsc, consStr, ih]
    · subst h4; simp [readStr, readEsc, consStr, ih]
    · subst h5; simp [readStr, readEsc, consStr, ih]
    · subst h6; simp [readStr, readEsc, consStr, ih]
    · subst h7; simp [readStr, readEsc, consStr, ih]
    · -- other control bytes go through the hex path
      have hq : b / 16 < 16 := by omega
      have hr : b % 16 < 16 := by omega
      have e1 : hexVal (hexDigitByte (b / 16)) = some (b / 16) := hexVal_hexDigitByte _ hq
      have e2 : hexVal (hexDigitByte (b % 16)) = some (b % 16) := hexVal_hexDigitByte _ hr
      have e0 : hexVal 48 = some 0 := by decide
      have hcp : 0 * 4096 + 0 * 256 + b / 16 * 16 + b % 16 = b := by omega
      have hns1 : ¬ (55296 ≤ b ∧ b ≤ 56319) := by omega
      have hns2 : ¬ (56320 ≤ b ∧ b ≤ 57343) := by omega
      have hu : utf8Enc b = [b] := by unfold utf8Enc; rw [if_pos (by omega)]
      simp only [List.cons_append]
      unfold readStr
      norm_num
      unfold readEsc
      norm_num
      unfold readHex
      simp only [hex4, e0, e1, e2, hcp]
      rw [if_neg hns1, if_neg hns2, hu, ih rest]
      simp [appendStr]
    · -- plain byte
      simp only [List.cons_append, List.nil_append]
      rw [readStr]
      rw [if_neg h1, if_neg h2, if_neg (by omega : ¬ b < 32), ih rest]
      simp [consStr]

/-! ## JSON values and the serde_json parser model

`serde_json::from_slice` drives a recursive-descent parser.  We model the
values it can see: integers are kept exactly (`jint`); a number with a
fraction or exponent deserializes into none of the integer types the schemas
use, so it is kept only as the marker `jnum`. -/

inductive Json where
  | jnull
  | jbool (b : Bool)
  | jint (i : Int)
  | jnum
  | jstr (s : List Nat)
  | jarr (xs : List Json)
  | jobj (ms : List (List Nat × Json))

/-- JSON insignificant whitespace. -/
def isWsByte (b : Nat) : Bool := b == 32 || b == 9 || b == 10 || b == 13

/-- Skip insignificant whitespace. -/
def skipWs (bs : List Nat) : List Nat := bs.dropWhile isWsByte

/-- Numeric value of ASCII digit bytes, most significant first. -/
def digitsNum (ds : List Nat) : Nat := digitsVal (ds.map (fun d => d - 48))

/-- Split off the longest prefix satisfying `p` (the semantics of
`List.span`, spelled with `takeWhile`/`dropWhile` so proofs can follow it). -/
def spanBytes (p : Nat → Bool) (bs : List Nat) : List Nat × List Nat :=
  (bs.takeWhile p, bs.dropWhile p)

/-- Read an optional exponent part; a number with an exponent is `jnum`. -/
def readExp (isInt : Bool) (n : Int) (bs : List Nat) : Option (Json × List Nat) :=
  match bs with
  | b :: r =>
    if b = 101 ∨ b = 69 then
      let r2 := match r with
        | s :: t => if s = 43 ∨ s = 45 then t else r
        | [] => r
      match spanBytes isDigitByte r2 with
      | ([], _) => none
      | (_, r3) => some (.jnum, r3)
    else some (if isInt then .jint n else .jnum, bs)
  | [] => some (if isInt then .jint n else .jnum, [])

/-- Read an optional fraction part after the integer part. -/
def readFrac (n : Int) (bs : List Nat) : Option (Json × List Nat) :=
  match bs with
  | 46 :: r =>
    match spanBytes isDigitByte r with
    | ([], _) => none
    | (_, r2) => readExp false n r2
  | _ => readExp true n bs

/-- Read the digits of an integer part, rejecting a redundant leading zero as
the JSON grammar does. -/
def readIntPart (bs : List Nat) : Option (Nat × List Nat) :=
  if bs.takeWhile isDigitByte = [] then none
  else if 1 < (bs.takeWhile isDigitByte).length ∧ (bs.takeWhile isDigitByte).head? = some 48
    then none
  else some (digitsNum (bs.takeWhile isDigitByte), bs.dropWhile isDigitByte)

/-- Read a JSON number. -/
def readNum (bs : List Nat) : Option (Json × List Nat) :=
  match bs with
  | [] => none
  | b :: r =>
    if b = 45 then
      match readIntPart r with
      | none => none
      | some (n, r1) => readFrac (-(n : Int)) r1
    else
      match readIntPart bs with
      | none => none
      | some (n, r1) => readFrac (n : Int) r1

/-- Drop an expected literal tail (the rest of `null` / `true` / `false`). -/
def dropLit : List Nat → List Nat → Option (List Nat)
  | [], r => some r
  | x :: xs, y :: ys => if x = y then dropLit xs ys else none
  | _ :: _, [] => none

mutual

/-- Parse one JSON value.  The `Nat` argument is fuel bounding the recursion
depth; `jsonParse` supplies more fuel than any input can consume, so the fuel
only makes the recursion structural. -/
def jsonVal : Nat → List Nat → Option (Json × List Nat)
  | 0, _ => none
  | f + 1, bs =>
    match skipWs bs with
    | [] => none
    | b :: r =>
      if b = 110 then
        match dropLit (ascii "ull") r with
        | some r2 => some (.jnull, r2)
        | none => none
      else if b = 116 then
        match dropLit (ascii "rue") r with
        | some r2 => some (.jbool true, r2)
        | none => none
      else if b = 102 then
        match dropLit (ascii "alse") r with
        | some r2 => some (.jbool false, r2)
        | none => none
      else if b = 34 then
        match readStr r with
        | some (s, r2) => some (.jstr s, r2)
        | none => none
      else if b = 123 then
        match skipWs r with
        | c :: r2 =>
          if c = 125 then some (.jobj [], r2)
          else
            match jsonMemberSeq f r with
            | some (ms, r3) => some (.jobj ms, r3)
            | none => none
        | [] => none
      else if b = 91 then
        match skipWs r with
        | c :: r2 =>
          if c = 93 then some (.jarr [], r2)
          else
            match jsonItemSeq f r with
            | some (xs, r3) => some (.jarr xs, r3)
            | none => none
        | [] => none
      else readNum (b :: r)

/-- Parse a nonempty `"key": value` sequence and the closing brace. -/
def jsonMemberSeq : Nat → List Nat → Option (List (List Nat × Json) × List Nat)
  | 0, _ => none
  | f + 1, bs =>
    match skipWs bs with
    | c :: r =>
      if c = 34 then
        match readStr r with
        | some (k, r2) =>
          match skipWs r2 with
          | c2 :: r3 =>
            if c2 = 58 then
              match jsonVal f r3 with
              | some (v, r4) =>
                match skipWs r4 with
                | c3 :: r5 =>
                  if c3 = 44 then
                    match jsonMemberSeq f r5 with
                    | some (ms, r6) => some ((k, v) :: ms, r6)
                    | none => none
                  else if c3 = 125 then some ([(k, v)], r5)
                  else none
                | [] => none
              | none => none
            else none
          | [] => none
        | none => none
      else none
    | [] => none

/-- Parse a nonempty value sequence and the closing bracket. -/
def jsonItemSeq : Nat → List Nat → Option (List Json × List Nat)
  | 0, _ => none
  | f + 1, bs =>
    match jsonVal f bs with
    | some (v, r) =>
      match skipWs r with
      | c :: r2 =>
        if c = 44 then
          match jsonItemSeq f r2 with
          | some (xs, r3) => some (v :: xs, r3)
          | none => none
        else if c = 93 then some ([v], r2)
        else none
      | [] => none
    | none => none

end

/-- Parse a complete JSON document, requiring only whitespace after the value,
as `serde_json::from_slice` does. -/
def jsonParse (bs : List Nat) : Option Json :=
  match jsonVal (bs.length + 1) bs with
  | some (v, rest) => if skipWs rest = [] then some v else none
  | none => none

/-! ### Canonical-input parsing lemmas -/

theorem takeWhile_append_all (p : Nat → Bool) (xs ys : List Nat)
    (h1 : ∀ a ∈ xs, p a = true) (h2 : ∀ y, ys.head? = some y → p y = false) :
    (xs ++ ys).takeWhile p = xs := by
  induction xs with
  | nil =>
    simp only [List.nil_append]
    cases ys with
    | nil => rfl
    | cons y t => simp [List.takeWhile_cons, h2 y rfl]
  | cons x t ih =>
    simp [List.takeWhile_cons, h1 x (by simp), ih (fun a ha => h1 a (by simp [ha]))]

theorem dropWhile_append_all (p : Nat → Bool) (xs ys : List Nat)
    (h1 : ∀ a ∈ xs, p a = true) (h2 : ∀ y, ys.head? = some y → p y = false) :
    (xs ++ ys).dropWhile p = ys := by
  induction xs with
  | nil =>
    simp only [List.nil_append]
    cases ys with
    | nil => rfl
    | cons y t => simp [List.dropWhile_cons, h2 y rfl]
  | cons x t ih =>
    simp [List.dropWhile_cons, h1 x (by simp), ih (fun a ha => h1 a (by simp [ha]))]

theorem spanBytes_append_all (p : Nat → Bool) (xs ys : List Nat)
    (h1 : ∀ a ∈ xs, p a = true) (h2 : ∀ y, ys.head? = some y → p y = false) :
    spanBytes p (xs ++ ys) = (xs, ys) := by
  rw [spanBytes, takeWhile_append_all p xs ys h1 h2, dropWhile_append_all p xs ys h1 h2]

theorem skipWs_cons_of_not_ws (b : Nat) (r : List Nat) (h : isWsByte b = false) :
    skipWs (b :: r) = b :: r := by
  simp [skipWs, List.dropWhile_cons, h]

theorem dropLit_append (xs : List Nat) : ∀ r, dropLit xs (xs ++ r) = some r := by
  induction xs with
  | nil => intro r; rfl
  | cons x t ih => intro r; simp [dropLit, ih]

theorem natAscii_ne_nil (n : Nat) : natAscii n ≠ [] := by
  simp only [natAscii, natDigits, ne_eq, List.map_eq_nil_iff, List.reverse_eq_nil_iff]
  exact natDigitsRev_nonempty n

theorem natAscii_mem_bounds (n : Nat) : ∀ b ∈ natAscii n, 48 ≤ b ∧ b ≤ 57 := by
  intro b hb
  simp only [natAscii, List.mem_map] at hb
  obtain ⟨d, hd, rfl⟩ := hb
  have := natDigits_all_lt n d hd
  omega

theorem digitsNum_natAscii (n : Nat) : digitsNum (natAscii n) = n := by
  have h : (natAscii n).map (fun d => d - 48) = natDigits n := by
    simp [natAscii, List.map_map, Function.comp_def]
  rw [digitsNum, h, digitsVal_natDigits]

theorem natAscii_no_lead_zero (n : Nat) :
    ¬ (1 < (natAscii n).length ∧ (natAscii n).head? = some 48) := by
  rintro ⟨hlen, hhead⟩
  by_cases h : n < 10
  · have h1 : (natAscii n).length = 1 := by
      have e : natDigitsRev n = [n] := by rw [natDigitsRev_eq, if_pos h]
      simp [natAscii, natDigits, e]
    omega
  · have hpos : 0 < n := by omega
    rw [natAscii, natDigits, List.head?_map, List.head?_reverse] at hhead
    cases hg : (natDigitsRev n).getLast? with
    | none => rw [hg] at hhead; simp at hhead
    | some d =>
      rw [hg] at hhead
      simp at hhead
      exact natDigitsRev_getLast_ne_zero n hpos d hg (by omega)

theorem readIntPart_natAscii (n : Nat) (rest : List Nat)
    (hrest : ∀ y, rest.head? = some y → isDigitByte y = false) :
    readIntPart (natAscii n ++ rest) = some (n, rest) := by
  have hall : ∀ a ∈ natAscii n, isDigitByte a = true := by
    intro a ha
    have := natAscii_mem_bounds n a ha
    simp [isDigitByte]
    omega
  unfold readIntPart
  rw [takeWhile_append_all isDigitByte _ _ hall hrest,
    dropWhile_append_all isDigitByte _ _ hall hrest,
    if_neg (natAscii_ne_nil n), if_neg (natAscii_no_lead_zero n), digitsNum_natAscii]

/-- Bytes that may legitimately follow a JSON value inside a document, in the
positions our canonical frames put values. -/
def goodTailB (rest : List Nat) : Bool :=
  match rest with
  | [] => true
  | b :: _ => b == 44 || b == 125 || b == 93

/-- `v` parses as the value `j` at any sufficient fuel, leaving the tail. -/
def ValParses (v : List Nat) (j : Json) : Prop :=
  ∀ f rest, goodTailB rest = true → jsonVal (f + 1) (v ++ rest) = some (j, rest)

theorem readFrac_int (n : Int) (rest : List Nat) (h : goodTailB rest = true) :
    readFrac n rest = some (.jint n, rest) := by
  cases rest with
  | nil => rfl
  | cons b r =>
    simp only [goodTailB, Bool.or_eq_true, beq_iff_eq] at h
    rcases h with (rfl | rfl) | rfl <;> rfl

theorem goodTail_head_not_digit (rest : List Nat) (h : goodTailB rest = true) :
    ∀ y, rest.head? = some y → isDigitByte y = false := by
  intro y hy
  cases rest with
  | nil => simp at hy
  | cons b r =>
    simp only [List.head?_cons, Option.some.injEq] at hy
    subst hy
    simp only [goodTailB, Bool.or_eq_true, beq_iff_eq] at h
    rcases h with (rfl | rfl) | rfl <;> rfl

theorem ValParses_nat (n : Nat) : ValParses (natAscii n) (.jint n) := by
  intro f rest h
  cases hds : natAscii n with
  | nil => exact absurd hds (natAscii_ne_nil n)
  | cons d t =>
    have hdn : 48 ≤ d ∧ d ≤ 57 := natAscii_mem_bounds n d (by rw [hds]; simp)
    rw [List.cons_append, jsonVal]
    have e2 : skipWs (d :: (t ++ rest)) = d :: (t ++ rest) :=
      skipWs_cons_of_not_ws _ _ (by simp [isWsByte]; omega)
    rw [e2]
    simp only []
    rw [if_neg (by omega : ¬ d = 110), if_neg (by omega : ¬ d = 116),
      if_neg (by omega : ¬ d = 102), if_neg (by omega : ¬ d = 34),
      if_neg (by omega : ¬ d = 123), if_neg (by omega : ¬ d = 91)]
    rw [readNum, if_neg (by omega : ¬ d = 45), ← List.cons_append, ← hds,
      readIntPart_natAscii n rest (goodTail_head_not_digit rest h)]
    exact readFrac_int n rest h

theorem ValParses_int (i : Int) : ValParses (intAscii i) (.jint i) := by
  intro f rest h
  by_cases hneg : i < 0
  · have e1 : intAscii i ++ rest = 45 :: (natAscii i.natAbs ++ rest) := by
      rw [intAscii, if_pos hneg]; rfl
    rw [e1, jsonVal]
    have e2 : skipWs (45 :: (natAscii i.natAbs ++ rest)) = 45 :: (natAscii i.natAbs ++ rest) :=
      skipWs_cons_of_not_ws _ _ (by simp [isWsByte])
    rw [e2]
    norm_num
    rw [readNum]
    norm_num
    rw [readIntPart_natAscii i.natAbs rest (goodTail_head_not_digit rest h)]
    show readFrac (-(i.natAbs : Int)) rest = some (Json.jint i, rest)
    have e3 : -(i.natAbs : Int) = i := by omega
    rw [e3]
    exact readFrac_int i rest h
  · rw [intAscii, if_neg hneg]
    have : ((i.toNat : Int)) = i := by omega
    have h2 := ValParses_nat i.toNat f rest h
    rw [this] at h2
    exact h2

theorem ValParses_str (s : List Nat) : ValParses (jsonStr s) (.jstr s) := by
  intro f rest h
  have e1 : jsonStr s ++ rest = 34 :: (escapeBytes s ++ 34 :: rest) := by
    simp [jsonStr]
  rw [e1, jsonVal]
  have e2 : skipWs (34 :: (escapeBytes s ++ 34 :: rest)) = 34 :: (escapeBytes s ++ 34 :: rest) :=
    skipWs_cons_of_not_ws _ _ (by simp [isWsByte])
  rw [e2]
  norm_num
  rw [readStr_escape]

/-- Canonical bytes of a JSON boolean (serde output for a `bool` field). -/
def boolBytes (b : Bool) : List Nat := if b then ascii "true" else ascii "false"

theorem ValParses_bool (b : Bool) : ValParses (boolBytes b) (.jbool b) := by
  intro f rest h
  cases b with
  | true =>
    have e1 : boolBytes true ++ rest = 116 :: (ascii "rue" ++ rest) := by rfl
    rw [e1, jsonVal]
    have e2 : skipWs (116 :: (ascii "rue" ++ rest)) = 116 :: (ascii "rue" ++ rest) :=
      skipWs_cons_of_not_ws _ _ (by simp [isWsByte])
    rw [e2]
    norm_num
    rw [dropLit_append]
  | false =>
    have e1 : boolBytes false ++ rest = 102 :: (ascii "alse" ++ rest) := by rfl
    rw [e1, jsonVal]
    have e2 : skipWs (102 :: (ascii "alse" ++ rest)) = 102 :: (ascii "alse" ++ rest) :=
      skipWs_cons_of_not_ws _ _ (by simp [isWsByte])
    rw [e2]
    norm_num
    rw [dropLit_append]

/-! ### Canonical object encodings

serde_json serializes a struct as `{"k1":v1,"k2":v2,...}` with the fields in
declaration order and no whitespace.  `membersBytes`/`objBytes` build exactly
those bytes from a key/value-bytes list. -/

/-- One `"key":value` member. -/
def memberBytes (k v : List Nat) : List Nat := jsonStr k ++ 58 :: v

/-- Comma-joined members. -/
def membersBytes : List (List Nat × List Nat) → List Nat
  | [] => []
  | [(k, v)] => memberBytes k v
  | (k, v) :: rest => memberBytes k v ++ 44 :: membersBytes rest

/-- A complete canonical JSON object. -/
def objBytes (kvs : List (List Nat × List Nat)) : List Nat :=
  123 :: membersBytes kvs ++ [125]

/-- Key/value-bytes projection of a member spec (key, value bytes, value). -/
def specBytes (kvjs : List ((List Nat × List Nat) × Json)) : List (List Nat × List Nat) :=
  kvjs.map (fun t => t.1)

/-- Key/Json projection of a member spec. -/
def specJson (kvjs : List ((List Nat × List Nat) × Json)) : List (List Nat × Json) :=
  kvjs.map (fun t => (t.1.1, t.2))

theorem jsonMemberSeq_last (k v : List Nat) (j : Json) (hv : ValParses v j)
    (g : Nat) (rest : List Nat) :
    jsonMemberSeq (g + 1 + 1) (memberBytes k v ++ 125 :: rest) = some ([(k, j)], rest) := by
  have e1 : memberBytes k v ++ 125 :: rest
      = 34 :: (escapeBytes k ++ 34 :: (58 :: (v ++ 125 :: rest))) := by
    simp [memberBytes, jsonStr]
  rw [e1, jsonMemberSeq]
  rw [skipWs_cons_of_not_ws _ _ (by simp [isWsByte])]
  simp only []
  rw [if_true, readStr_escape]
  simp only []
  rw [skipWs_cons_of_not_ws _ _ (by simp [isWsByte])]
  simp only []
  rw [if_true, hv g (125 :: rest) (by rfl)]
  simp only []
  rw [skipWs_cons_of_not_ws _ _ (by simp [isWsByte])]
  simp

theorem jsonMemberSeq_cons (k v : List Nat) (j : Json) (hv : ValParses v j)
    (g : Nat) (rest2 : List Nat) :
    jsonMemberSeq (g + 1 + 1) (memberBytes k v ++ 44 :: rest2)
      = match jsonMemberSeq (g + 1) rest2 with
        | some (ms, r) => some ((k, j) :: ms, r)
        | none => none := by
  have e1 : memberBytes k v ++ 44 :: rest2
      = 34 :: (escapeBytes k ++ 34 :: (58 :: (v ++ 44 :: rest2))) := by
    simp [memberBytes, jsonStr]
  rw [e1, jsonMemberSeq]
  rw [skipWs_cons_of_not_ws _ _ (by simp [isWsByte])]
  simp only []
  rw [if_true, readStr_escape]
  simp only []
  rw [skipWs_cons_of_not_ws _ _ (by simp [isWsByte])]
  simp only []
  rw [if_true, hv g (44 :: rest2) (by rfl)]
  simp only []
  rw [skipWs_cons_of_not_ws _ _ (by simp [isWsByte])]
  simp only []
  rw [if_true]

theorem jsonMemberSeq_canonical (kvjs : List ((List Nat × List Nat) × Json)) :
    kvjs ≠ [] → (∀ t ∈ kvjs, ValParses t.1.2 t.2) →
    ∀ f rest, jsonMemberSeq (f + kvjs.length + 1) (membersBytes (specBytes kvjs) ++ 125 :: rest)
      = some (specJson kvjs, rest) := by
  induction kvjs with
  | nil => intro h; exact absurd rfl h
  | cons hd tl ih =>
    intro _ hv f rest
    obtain ⟨⟨k, v⟩, j⟩ := hd
    have hvhd : ValParses v j := hv ((k, v), j) (by simp)
    cases tl with
    | nil =>
      have e1 : membersBytes (specBytes [((k, v), j)]) = memberBytes k v := by rfl
      have e2 : f + ([((k, v), j)] : List _).length + 1 = f + 1 + 1 := by simp
      rw [e1, e2, jsonMemberSeq_last k v j hvhd f rest]
      rfl
    | cons t2 tl2 =>
      have e1 : membersBytes (specBytes (((k, v), j) :: t2 :: tl2))
          = memberBytes k v ++ 44 :: membersBytes (specBytes (t2 :: tl2)) := by
        rfl
      have e2 : f + ((((k, v), j) :: t2 :: tl2) : List _).length + 1
          = (f + (t2 :: tl2).length) + 1 + 1 := by simp; omega
      rw [e1, e2, List.append_assoc, List.cons_append, jsonMemberSeq_cons k v j hvhd _ _]
      have e3 : f + (t2 :: tl2).length + 1 = f + (t2 :: tl2 : List _).length + 1 := rfl
      rw [ih (by simp) (fun t ht => hv t (by simp [ht])) f rest]
      rfl

theorem membersBytes_cons_head (kvs : List (List Nat × List Nat)) (h : kvs ≠ []) :
    ∃ t, membersBytes kvs = 34 :: t := by
  cases kvs with
  | nil => exact absurd rfl h
  | cons hd tl =>
    obtain ⟨k, v⟩ := hd
    cases tl with
    | nil => exact ⟨escapeBytes k ++ 34 :: (58 :: v), by simp [membersBytes, memberBytes, jsonStr]⟩
    | cons t2 tl2 =>
      exact ⟨escapeBytes k ++ 34 :: (58 :: (v ++ 44 :: membersBytes (t2 :: tl2))),
        by simp [membersBytes, memberBytes, jsonStr]⟩

theorem jsonVal_objBytes (kvjs : List ((List Nat × List Nat) × Json))
    (hne : kvjs ≠ []) (hv : ∀ t ∈ kvjs, ValParses t.1.2 t.2)
    (g : Nat) (rest : List Nat) :
    jsonVal (g + kvjs.length + 1 + 1) (objBytes (specBytes kvjs) ++ rest)
      = some (.jobj (specJson kvjs), rest) := by
  have hsne : specBytes kvjs ≠ [] := by
    cases kvjs with
    | nil => exact absurd rfl hne
    | cons hd tl => simp [specBytes]
  obtain ⟨t, ht⟩ := membersBytes_cons_head (specBytes kvjs) hsne
  have hm := jsonMemberSeq_canonical kvjs hne hv g rest
  have e1 : objBytes (specBytes kvjs) ++ rest
      = 123 :: (membersBytes (specBytes kvjs) ++ 125 :: rest) := by
    simp [objBytes]
  rw [e1, jsonVal]
  rw [skipWs_cons_of_not_ws _ _ (by simp [isWsByte])]
  simp only []
  rw [if_neg (by norm_num : ¬ (123 : Nat) = 110), if_neg (by norm_num : ¬ (123 : Nat) = 116),
    if_neg (by norm_num : ¬ (123 : Nat) = 102), if_neg (by norm_num : ¬ (123 : Nat) = 34),
    if_true]
  rw [ht] at hm ⊢
  simp only [List.cons_append] at hm ⊢
  rw [skipWs_cons_of_not_ws _ _ (by simp [isWsByte])]
  simp only []
  rw [if_neg (by norm_num : ¬ (34 : Nat) = 125), hm]

theorem membersBytes_length_ge (kvs : List (List Nat × List Nat))
    (hv : ∀ p ∈ kvs, p.2 ≠ []) : kvs.length ≤ (membersBytes kvs).length := by
  induction kvs with
  | nil => simp
  | cons hd tl ih =>
    obtain ⟨k, v⟩ := hd
    have hvne : v ≠ [] := hv (k, v) (by simp)
    have hvlen : 1 ≤ v.length := List.length_pos.mpr hvne
    cases tl with
    | nil => simp [membersBytes, memberBytes, jsonStr]
    | cons t2 tl2 =>
      have := ih (fun p hp => hv p (by simp [hp]))
      simp [membersBytes, memberBytes, jsonStr] at this ⊢
      omega

theorem jsonParse_objBytes (kvjs : List ((List Nat × List Nat) × Json))
    (hne : kvjs ≠ []) (hv : ∀ t ∈ kvjs, ValParses t.1.2 t.2)
    (hvne : ∀ t ∈ kvjs, t.1.2 ≠ []) :
    jsonParse (objBytes (specBytes kvjs)) = some (.jobj (specJson kvjs)) := by
  have hlen : kvjs.length ≤ (membersBytes (specBytes kvjs)).length := by
    have h1 : (specBytes kvjs).length = kvjs.length := by simp [specBytes]
    have := membersBytes_length_ge (specBytes kvjs)
      (by
        intro p hp
        rw [specBytes, List.mem_map] at hp
        obtain ⟨u, hu, rfl⟩ := hp
        exact hvne u hu)
    omega
  have hobj : (objBytes (specBytes kvjs)).length = (membersBytes (specBytes kvjs)).length + 2 := by
    simp [objBytes]
  have hL : (objBytes (specBytes kvjs)).length + 1
      = ((objBytes (specBytes kvjs)).length - kvjs.length - 1) + kvjs.length + 1 + 1 := by
    omega
  rw [jsonParse, hL, ← List.append_nil (objBytes (specBytes kvjs))]
  rw [jsonVal_objBytes kvjs hne hv _ []]
  simp [skipWs]

/-! ## Base64 (the `base64` crate's STANDARD engine, padded)

`SnapshotMessage.screen` is serialized through
`base64::engine::general_purpose::STANDARD.encode` and decoded with the same
engine, which rejects missing padding and nonzero discarded trailing bits. -/

/-- Standard-alphabet symbol for a sextet. -/
def b64chr (n : Nat) : Nat :=
  if n < 26 then 65 + n
  else if n < 52 then 97 + (n - 26)
  else if n < 62 then 48 + (n - 52)
  else if n = 62 then 43
  else 47

/-- Sextet value of a standard-alphabet symbol. -/
def b64val (b : Nat) : Option Nat :=
  if 65 ≤ b ∧ b ≤ 90 then some (b - 65)
  else if 97 ≤ b ∧ b ≤ 122 then some (b - 97 + 26)
  else if 48 ≤ b ∧ b ≤ 57 then some (b - 48 + 52)
  else if b = 43 then some 62
  else if b = 47 then some 63
  else none

/-- Base64-encode a byte string (with `=` padding). -/
def b64encode : List Nat → List Nat
  | [] => []
  | [a] => [b64chr (a / 4), b64chr (a % 4 * 16), 61, 61]
  | [a, b] => [b64chr (a / 4), b64chr (a % 4 * 16 + b / 16), b64chr (b % 16 * 4), 61]
  | a :: b :: c :: rest =>
    b64chr (a / 4) :: b64chr (a % 4 * 16 + b / 16) :: b64chr (b % 16 * 4 + c / 64)
      :: b64chr (c % 64) :: b64encode rest

/-- Base64-decode (padded, canonical: nonzero discarded bits are rejected). -/
def b64decode : List Nat → Option (List Nat)
  | [] => some []
  | c1 :: c2 :: c3 :: c4 :: rest =>
    match b64val c1, b64val c2 with
    | some v1, some v2 =>
      if c3 = 61 ∧ c4 = 61 ∧ rest = [] then
        if v2 % 16 = 0 then some [v1 * 4 + v2 / 16] else none
      else if c4 = 61 ∧ rest = [] then
        match b64val c3 with
        | some v3 =>
          if v3 % 4 = 0 then some [v1 * 4 + v2 / 16, v2 % 16 * 16 + v3 / 4] else none
        | none => none
      else
        match b64val c3, b64val c4 with
        | some v3, some v4 =>
          match b64decode rest with
          | some bs => some ((v1 * 4 + v2 / 16) :: (v2 % 16 * 16 + v3 / 4) :: (v3 % 4 * 64 + v4) :: bs)
          | none => none
        | _, _ => none
    | _, _ => none
  | _ => none

theorem b64val_chr : ∀ x, x < 64 → b64val (b64chr x) = some x := by decide

theorem b64chr_ne_pad : ∀ x, x < 64 → b64chr x ≠ 61 := by decide

theorem b64decode_encode (s : List Nat) (h : ∀ b ∈ s, b < 256) :
    b64decode (b64encode s) = some s := by
  have key : ∀ n (s : List Nat), s.length ≤ n → (∀ b ∈ s, b < 256) →
      b64decode (b64encode s) = some s := by
    intro n
    induction n with
    | zero =>
      intro s hs _
      have : s = [] := by
        cases s with
        | nil => rfl
        | cons a t => simp at hs
      subst this
      rfl
    | succ n ih =>
      intro s hs hb
      cases s with
      | nil => rfl
      | cons a s1 =>
        have ha : a < 256 := hb a (by simp)
        cases s1 with
        | nil =>
          rw [b64encode, b64decode]
          rw [b64val_chr _ (by omega), b64val_chr _ (by omega)]
          simp only []
          rw [if_pos (by simp), if_pos (by omega)]
          rw [show a / 4 * 4 + a % 4 * 16 / 16 = a from by omega]
        | cons b s2 =>
          have hbb : b < 256 := hb b (by simp)
          cases s2 with
          | nil =>
            rw [b64encode, b64decode]
            rw [b64val_chr _ (by omega), b64val_chr _ (by omega)]
            simp only []
            rw [if_neg (by
              intro hcon
              exact b64chr_ne_pad _ (by omega) hcon.1)]
            rw [if_pos (by simp), b64val_chr _ (by omega)]
            simp only []
            rw [if_pos (by omega)]
            rw [show a / 4 * 4 + (a % 4 * 16 + b / 16) / 16 = a from by omega,
              show (a % 4 * 16 + b / 16) % 16 * 16 + b % 16 * 4 / 4 = b from by omega]
          | cons c s3 =>
            have hc : c < 256 := hb c (by simp)
            rw [b64encode, b64decode]
            rw [b64val_chr _ (by omega), b64val_chr _ (by omega)]
            simp only []
            rw [if_neg (by
              intro hcon
              exact b64chr_ne_pad _ (by omega) hcon.1)]
            rw [if_neg (by
              intro hcon
              exact b64chr_ne_pad _ (by omega) hcon.1)]
            rw [b64val_chr _ (by omega), b64val_chr _ (by omega)]
            simp only []
            rw [ih s3 (by simp at hs; omega) (fun x hx => hb x (by simp [hx]))]
            simp only []
            rw [show a / 4 * 4 + (a % 4 * 16 + b / 16) / 16 = a from by omega,
              show (a % 4 * 16 + b / 16) % 16 * 16 + (b % 16 * 4 + c / 64) / 4 = b from by omega,
              show (b % 16 * 4 + c / 64) % 4 * 64 + c % 64 = c from by omega]
  exact key s.length s (le_refl _) h

/-! ## Protocol message types (`protocol.rs`)

Strings are byte lists, `u16` fields are `Nat`, `i32` is `Int`. -/

/-- `ResizeMessage` — terminal resize dimensions. -/
structure ResizeMessage where
  cols : Nat
  rows : Nat
deriving DecidableEq

/-- `HandshakeMessage` — handshake metadata sent to the relay on connection;
`cols`/`rows` are skipped when `None` (`skip_serializing_if`). -/
structure HandshakeMessage where
  version : List Nat
  shell : List Nat
  cols : Option Nat
  rows : Option Nat
deriving DecidableEq

/-- `SnapshotRequest` — request for a terminal state snapshot. -/
structure SnapshotRequest where
  requestId : List Nat
deriving DecidableEq

/-- `SnapshotMessage` — terminal state snapshot response; `screen` is base64
in the JSON. -/
structure SnapshotMessage where
  requestId : List Nat
  screen : List Nat
  cols : Nat
  rows : Nat
  cursorX : Nat
  cursorY : Nat
deriving DecidableEq

/-- `RelayMessage` — messages received from the relay on a data channel. -/
inductive RelayMessage where
  | input (data : List Nat)
  | resize (r : ResizeMessage)
  | pause
  | resume
  | requestSnapshot (q : SnapshotRequest)
deriving DecidableEq

/-- `ClientMessage` — messages the agent sends to the relay on a data channel. -/
inductive ClientMessage where
  | output (data : List Nat)
  | handshake (h : HandshakeMessage)
  | exitMsg (code : Int)
  | snapshot (s : SnapshotMessage)
deriving DecidableEq

/-- `ControlMessage` — control messages received from the relay
(`#[serde(tag = "type", rename_all = "snake_case")]`). -/
inductive ControlMessage where
  | startTerminal (name : List Nat) (cols rows : Nat) (requestId : List Nat)
  | closeTerminal (name : List Nat) (signal : Option Int)
deriving DecidableEq

/-- `ControlResponse` — control responses sent to the relay. -/
inductive ControlResponse where
  | controlHandshake (version hostname username workingDir : List Nat)
  | terminalStarted (name requestId : List Nat) (success : Bool) (error : Option (List Nat))
  | terminalClosed (name : List Nat) (exitCode : Int)
deriving DecidableEq

/-! ### serde field extraction -/

/-- Deserialize a `u16` from a JSON value, as serde does (an integer in
range; floats, strings, etc. are type errors). -/
def asU16 (j : Json) : Except String Nat :=
  match j with
  | .jint i => if 0 ≤ i ∧ i < 65536 then .ok i.toNat else .error "u16 out of range"
  | _ => .error "invalid type for u16"

/-- Deserialize an `i32`. -/
def asI32 (j : Json) : Except String Int :=
  match j with
  | .jint i => if -2147483648 ≤ i ∧ i < 2147483648 then .ok i else .error "i32 out of range"
  | _ => .error "invalid type for i32"

/-- Deserialize a `String` (kept as its bytes). -/
def asStr (j : Json) : Except String (List Nat) :=
  match j with
  | .jstr s => .ok s
  | _ => .error "invalid type for string"

/-- Deserialize a `bool`. -/
def asBool (j : Json) : Except String Bool :=
  match j with
  | .jbool b => .ok b
  | _ => .error "invalid type for bool"

/-- Deserialize an `Option<u16>` field value (`null` becomes `None`). -/
def asOptU16 (j : Json) : Except String (Option Nat) :=
  match j with
  | .jnull => .ok none
  | .jint i => if 0 ≤ i ∧ i < 65536 then .ok (some i.toNat) else .error "u16 out of range"
  | _ => .error "invalid type for u16"

/-- Deserialize an `Option<i32>` field value. -/
def asOptI32 (j : Json) : Except String (Option Int) :=
  match j with
  | .jnull => .ok none
  | .jint i =>
    if -2147483648 ≤ i ∧ i < 2147483648 then .ok (some i) else .error "i32 out of range"
  | _ => .error "invalid type for i32"

/-- Deserialize the base64 `screen` field (`base64_serde::deserialize`). -/
def asB64 (j : Json) : Except String (List Nat) :=
  match j with
  | .jstr s =>
    match b64decode s with
    | some bs => .ok bs
    | none => .error "invalid base64"
  | _ => .error "invalid type for base64 string"

/-! ### Derived struct deserializers

Each mirrors the serde derive at the result level: fields may come in any
order, an unknown field is ignored, a duplicate known field is an error, a
missing field is an error — unless the field is an `Option`, which defaults
to `None`.  (serde reports whichever error its field loop hits first; only
the ok/error outcome, not the message, is modelled.) -/

/-- Error propagation (Rust's `?` on the deserializer results). -/
def exb {α β : Type} (x : Except String α) (f : α → Except String β) : Except String β :=
  match x with
  | .ok a => f a
  | .error e => .error e

theorem exb_ok {α β : Type} (a : α) (f : α → Except String β) : exb (.ok a) f = f a := rfl

theorem exb_err {α β : Type} (e : String) (f : α → Except String β) :
    exb (.error e) f = .error e := rfl

/-- The values bound to `key` among an object's members, in order. -/
def fieldVals (ms : List (List Nat × Json)) (key : List Nat) : List Json :=
  (ms.filter (fun p => p.1 == key)).map (fun p => p.2)

/-- A required field: present exactly once. -/
def reqField (ms : List (List Nat × Json)) (key : List Nat) : Except String Json :=
  match fieldVals ms key with
  | [v] => .ok v
  | [] => .error "missing field"
  | _ => .error "duplicate field"

/-- An optional `String` value (`null` becomes `None`). -/
def asOptStr (j : Json) : Except String (Option (List Nat)) :=
  match j with
  | .jnull => .ok none
  | .jstr s => .ok (some s)
  | _ => .error "invalid type for string"

/-- An optional `u16` field: absent or `null` becomes `None`. -/
def optU16Field (ms : List (List Nat × Json)) (key : List Nat) : Except String (Option Nat) :=
  match fieldVals ms key with
  | [] => .ok none
  | [v] => asOptU16 v
  | _ => .error "duplicate field"

/-- An optional `i32` field. -/
def optI32Field (ms : List (List Nat × Json)) (key : List Nat) : Except String (Option Int) :=
  match fieldVals ms key with
  | [] => .ok none
  | [v] => asOptI32 v
  | _ => .error "duplicate field"

/-- An optional `String` field. -/
def optStrField (ms : List (List Nat × Json)) (key : List Nat) :
    Except String (Option (List Nat)) :=
  match fieldVals ms key with
  | [] => .ok none
  | [v] => asOptStr v
  | _ => .error "duplicate field"

/-- serde deserialization of `ResizeMessage`. -/
def resizeFromJson : Json → Except String ResizeMessage
  | .jobj ms =>
    exb (reqField ms (ascii "cols")) fun jc =>
    exb (asU16 jc) fun c =>
    exb (reqField ms (ascii "rows")) fun jr =>
    exb (asU16 jr) fun r =>
    .ok ⟨c, r⟩
  | _ => .error "invalid type: expected object"

/-- serde deserialization of `SnapshotRequest`. -/
def snapshotReqFromJson : Json → Except String SnapshotRequest
  | .jobj ms =>
    exb (reqField ms (ascii "requestId")) fun jq =>
    exb (asStr jq) fun q =>
    .ok ⟨q⟩
  | _ => .error "invalid type: expected object"

/-- serde deserialization of `HandshakeMessage`. -/
def handshakeFromJson : Json → Except String HandshakeMessage
  | .jobj ms =>
    exb (reqField ms (ascii "version")) fun jv =>
    exb (asStr jv) fun v =>
    exb (reqField ms (ascii "shell")) fun js =>
    exb (asStr js) fun sh =>
    exb (optU16Field ms (ascii "cols")) fun c =>
    exb (optU16Field ms (ascii "rows")) fun r =>
    .ok ⟨v, sh, c, r⟩
  | _ => .error "invalid type: expected object"

/-- serde deserialization of `SnapshotMessage`. -/
def snapshotFromJson : Json → Except String SnapshotMessage
  | .jobj ms =>
    exb (reqField ms (ascii "requestId")) fun jq =>
    exb (asStr jq) fun q =>
    exb (reqField ms (ascii "screen")) fun jsc =>
    exb (asB64 jsc) fun sc =>
    exb (reqField ms (ascii "cols")) fun jc =>
    exb (asU16 jc) fun c =>
    exb (reqField ms (ascii "rows")) fun jr =>
    exb (asU16 jr) fun r =>
    exb (reqField ms (ascii "cursorX")) fun jx =>
    exb (asU16 jx) fun x =>
    exb (reqField ms (ascii "cursorY")) fun jy =>
    exb (asU16 jy) fun y =>
    .ok ⟨q, sc, c, r, x, y⟩
  | _ => .error "invalid type: expected object"

/-- Decode the fields of the `StartTerminal` variant. -/
def startTermDecode (ms : List (List Nat × Json)) : Except String ControlMessage :=
  exb (reqField ms (ascii "name")) fun jn =>
  exb (asStr jn) fun n =>
  exb (reqField ms (ascii "cols")) fun jc =>
  exb (asU16 jc) fun c =>
  exb (reqField ms (ascii "rows")) fun jr =>
  exb (asU16 jr) fun r =>
  exb (reqField ms (ascii "requestId")) fun jq =>
  exb (asStr jq) fun q =>
  .ok (.startTerminal n c r q)

/-- Decode the fields of the `CloseTerminal` variant (`signal` has
`#[serde(default)]`, so a missing field becomes `None`). -/
def closeTermDecode (ms : List (List Nat × Json)) : Except String ControlMessage :=
  exb (reqField ms (ascii "name")) fun jn =>
  exb (asStr jn) fun n =>
  exb (optI32Field ms (ascii "signal")) fun sg =>
  .ok (.closeTerminal n sg)

/-- serde deserialization of the internally tagged `ControlMessage`: the
`type` tag selects the variant, unknown tags are an error. -/
def controlMessageFromJson : Json → Except String ControlMessage
  | .jobj ms =>
    exb (reqField ms (ascii "type")) fun t =>
    match t with
    | .jstr tag =>
      if tag = ascii "start_terminal" then startTermDecode ms
      else if tag = ascii "close_terminal" then closeTermDecode ms
      else .error "unknown variant"
    | _ => .error "invalid type tag"
  | _ => .error "invalid type: expected object"

/-- Decode the fields of the `ControlHandshake` variant. -/
def ctrlHsDecode (ms : List (List Nat × Json)) : Except String ControlResponse :=
  exb (reqField ms (ascii "version")) fun jv =>
  exb (asStr jv) fun v =>
  exb (reqField ms (ascii "hostname")) fun jh =>
  exb (asStr jh) fun h =>
  exb (reqField ms (ascii "username")) fun ju =>
  exb (asStr ju) fun u =>
  exb (reqField ms (ascii "workingDir")) fun jw =>
  exb (asStr jw) fun w =>
  .ok (.controlHandshake v h u w)

/-- Decode the fields of the `TerminalStarted` variant (`error` is optional,
absent means `None`). -/
def termStartedDecode (ms : List (List Nat × Json)) : Except String ControlResponse :=
  exb (reqField ms (ascii "name")) fun jn =>
  exb (asStr jn) fun n =>
  exb (reqField ms (ascii "requestId")) fun jq =>
  exb (asStr jq) fun q =>
  exb (reqField ms (ascii "success")) fun jsu =>
  exb (asBool jsu) fun su =>
  exb (optStrField ms (ascii "error")) fun er =>
  .ok (.terminalStarted n q su er)

/-- Decode the fields of the `TerminalClosed` variant. -/
def termClosedDecode (ms : List (List Nat × Json)) : Except String ControlResponse :=
  exb (reqField ms (ascii "name")) fun jn =>
  exb (asStr jn) fun n =>
  exb (reqField ms (ascii "exitCode")) fun jc =>
  exb (asI32 jc) fun c =>
  .ok (.terminalClosed n c)

/-- Modelled from the spec: the relay-side deserializer of the agent's JSON
control responses (the repository only serializes `ControlResponse`; the
decoding side lives in the relay).  It follows the schema of §4.1/§4.5:
internally tagged objects with snake_case tags and the field names of
`protocol.rs`. -/
def controlResponseFromJson : Json → Except String ControlResponse
  | .jobj ms =>
    exb (reqField ms (ascii "type")) fun t =>
    match t with
    | .jstr tag =>
      if tag = ascii "control_handshake" then ctrlHsDecode ms
      else if tag = ascii "terminal_started" then termStartedDecode ms
      else if tag = ascii "terminal_closed" then termClosedDecode ms
      else .error "unknown variant"
    | _ => .error "invalid type tag"
  | _ => .error "invalid type: expected object"

/-! ## Wire codec (`protocol.rs`)

Byte prefixes: relay→agent Input `'0'`=48, Resize `'1'`=49, Pause `'2'`=50,
Resume `'3'`=51, RequestSnapshot `'4'`=52; agent→relay Output `'0'`,
Handshake `'1'`, Exit `'2'`, Snapshot `'3'`. -/

/-- serde_json bytes of a `ResizeMessage` (fields in declaration order). -/
def resizeJsonBytes (r : ResizeMessage) : List Nat :=
  objBytes [(ascii "cols", natAscii r.cols), (ascii "rows", natAscii r.rows)]

/-- serde_json bytes of a `SnapshotRequest`. -/
def snapshotReqJsonBytes (q : SnapshotRequest) : List Nat :=
  objBytes [(ascii "requestId", jsonStr q.requestId)]

/-- serde_json bytes of a `HandshakeMessage` (`cols`/`rows` skipped when
`None`, per `skip_serializing_if = "Option::is_none"`). -/
def handshakeJsonBytes (h : HandshakeMessage) : List Nat :=
  objBytes ([(ascii "version", jsonStr h.version), (ascii "shell", jsonStr h.shell)]
    ++ (match h.cols with
        | some c => [(ascii "cols", natAscii c)]
        | none => [])
    ++ (match h.rows with
        | some r => [(ascii "rows", natAscii r)]
        | none => []))

/-- serde_json bytes of a `SnapshotMessage` (`screen` base64-encoded). -/
def snapshotJsonBytes (s : SnapshotMessage) : List Nat :=
  objBytes [(ascii "requestId", jsonStr s.requestId),
    (ascii "screen", jsonStr (b64encode s.screen)),
    (ascii "cols", natAscii s.cols), (ascii "rows", natAscii s.rows),
    (ascii "cursorX", natAscii s.cursorX), (ascii "cursorY", natAscii s.cursorY)]

/-- Map the success case (Rust's `.map(...)` on a `Result`). -/
def exm {α β : Type} (x : Except String α) (f : α → β) : Except String β :=
  match x with
  | .ok a => .ok (f a)
  | .error e => .error e

/-- `serde_json::from_slice` up to the generic JSON value: a parse failure is
an error result. -/
def jsonOrErr (data : List Nat) : Except String Json :=
  match jsonParse data with
  | some j => .ok j
  | none => .error "malformed JSON"

/-- Decode the payload of a Resize frame (`serde_json::from_slice`). -/
def resizeDecode (payload : List Nat) : Except String ResizeMessage :=
  exb (jsonOrErr payload) resizeFromJson

/-- Decode the payload of a RequestSnapshot frame. -/
def snapshotReqDecode (payload : List Nat) : Except String SnapshotRequest :=
  exb (jsonOrErr payload) snapshotReqFromJson

/-- `RelayMessage::parse` — parse a binary frame from the relay: empty input
is an error, the first byte selects the variant, tags `'1'` and `'4'` carry
JSON payloads, anything outside `'0'..'4'` is an unknown-prefix error. -/
def RelayMessage.parse (data : List Nat) : Except String RelayMessage :=
  match data with
  | [] => .error "empty message"
  | b :: payload =>
    if b = 48 then .ok (.input payload)
    else if b = 49 then exm (resizeDecode payload) RelayMessage.resize
    else if b = 50 then .ok .pause
    else if b = 51 then .ok .resume
    else if b = 52 then exm (snapshotReqDecode payload) RelayMessage.requestSnapshot
    else .error ("unknown message prefix: " ++ toString b)

/-- `ClientMessage::encode` — tag byte followed by the payload.  The Rust
function returns `Result` only because `serde_json::to_vec` formally can
fail; serialization of these types never does, so the model is total. -/
def ClientMessage.encode : ClientMessage → List Nat
  | .output d => 48 :: d
  | .handshake h => 49 :: handshakeJsonBytes h
  | .exitMsg c => 50 :: intAscii c
  | .snapshot s => 51 :: snapshotJsonBytes s

/-- Modelled from the spec: the relay-side encoder of relay→agent data
frames (§4.1's table fixes the tag bytes and JSON shapes; the encoder itself
lives in the relay, not in this repository). -/
def relayMessageEncode : RelayMessage → List Nat
  | .input d => 48 :: d
  | .resize r => 49 :: resizeJsonBytes r
  | .pause => [50]
  | .resume => [51]
  | .requestSnapshot q => 52 :: snapshotReqJsonBytes q

/-- Modelled from the spec: the relay-side decoder of agent→relay data
frames, following the same table. -/
def clientMessageDecode (data : List Nat) : Except String ClientMessage :=
  match data with
  | [] => .error "empty message"
  | b :: payload =>
    if b = 48 then .ok (.output payload)
    else if b = 49 then
      exb (jsonOrErr payload) fun j => exm (handshakeFromJson j) ClientMessage.handshake
    else if b = 50 then
      exb (jsonOrErr payload) fun j => exm (asI32 j) ClientMessage.exitMsg
    else if b = 51 then
      exb (jsonOrErr payload) fun j => exm (snapshotFromJson j) ClientMessage.snapshot
    else .error ("unknown message prefix: " ++ toString b)

/-- `ControlResponse::encode` — serde_json serialization of the internally
tagged enum: the `type` tag first, then the variant's fields in declaration
order, `error` skipped when `None`. -/
def ControlResponse.encode : ControlResponse → List Nat
  | .controlHandshake v h u w =>
    objBytes [(ascii "type", jsonStr (ascii "control_handshake")),
      (ascii "version", jsonStr v), (ascii "hostname", jsonStr h),
      (ascii "username", jsonStr u), (ascii "workingDir", jsonStr w)]
  | .terminalStarted n q s e =>
    objBytes ([(ascii "type", jsonStr (ascii "terminal_started")),
      (ascii "name", jsonStr n), (ascii "requestId", jsonStr q),
      (ascii "success", boolBytes s)]
      ++ (match e with
          | some m => [(ascii "error", jsonStr m)]
          | none => []))
  | .terminalClosed n c =>
    objBytes [(ascii "type", jsonStr (ascii "terminal_closed")),
      (ascii "name", jsonStr n), (ascii "exitCode", intAscii c)]

/-- `ControlMessage::parse` / `parse_str` — `serde_json::from_slice` into the
internally tagged `ControlMessage`. -/
def ControlMessage.parse (data : List Nat) : Except String ControlMessage :=
  exb (jsonOrErr data) controlMessageFromJson

/-- Modelled from the spec: the relay-side encoder of relay→agent control
frames (§4.1: snake_case `type` tag, listed field names, close-terminal
`signal` optional and absent by default). -/
def controlMessageEncode : ControlMessage → List Nat
  | .startTerminal n c r q =>
    objBytes [(ascii "type", jsonStr (ascii "start_terminal")),
      (ascii "name", jsonStr n), (ascii "cols", natAscii c),
      (ascii "rows", natAscii r), (ascii "requestId", jsonStr q)]
  | .closeTerminal n sg =>
    objBytes ([(ascii "type", jsonStr (ascii "close_terminal")),
      (ascii "name", jsonStr n)]
      ++ (match sg with
          | some s => [(ascii "signal", intAscii s)]
          | none => []))

/-- Modelled from the spec: the relay-side decoder of the agent's control
responses. -/
def controlResponseDecode (data : List Nat) : Except String ControlResponse :=
  exb (jsonOrErr data) controlResponseFromJson

/-! ## Round-trip lemmas for the wire codec -/

theorem exm_ok {α β : Type} (a : α) (f : α → β) : exm (.ok a) f = .ok (f a) := rfl

theorem exm_err {α β : Type} (e : String) (f : α → β) : exm (.error e) f = .error e := rfl

theorem jsonOrErr_some (data : List Nat) (j : Json) (h : jsonParse data = some j) :
    jsonOrErr data = .ok j := by
  unfold jsonOrErr
  rw [h]

theorem asU16_jint (c : Nat) (hc : c < 65536) : asU16 (.jint (c : Int)) = .ok c := by
  show (if 0 ≤ (c : Int) ∧ (c : Int) < 65536 then Except.ok (Int.toNat c)
    else Except.error "u16 out of range") = Except.ok c
  rw [if_pos (by omega)]
  simp

theorem asI32_jint (i : Int) (h1 : -2147483648 ≤ i) (h2 : i < 2147483648) :
    asI32 (.jint i) = .ok i := by
  show (if -2147483648 ≤ i ∧ i < 2147483648 then Except.ok i
    else Except.error "i32 out of range") = Except.ok i
  rw [if_pos ⟨h1, h2⟩]

theorem asOptU16_jint (c : Nat) (hc : c < 65536) : asOptU16 (.jint (c : Int)) = .ok (some c) := by
  show (if 0 ≤ (c : Int) ∧ (c : Int) < 65536 then Except.ok (some (Int.toNat c))
    else Except.error "u16 out of range") = Except.ok (some c)
  rw [if_pos (by omega)]
  simp

theorem asOptI32_jint (i : Int) (h1 : -2147483648 ≤ i) (h2 : i < 2147483648) :
    asOptI32 (.jint i) = .ok (some i) := by
  show (if -2147483648 ≤ i ∧ i < 2147483648 then Except.ok (some i)
    else Except.error "i32 out of range") = Except.ok (some i)
  rw [if_pos ⟨h1, h2⟩]

theorem asB64_encode (s : List Nat) (h : ∀ b ∈ s, b < 256) :
    asB64 (.jstr (b64encode s)) = .ok s := by
  simp only [asB64]
  rw [b64decode_encode s h]

/-- Rust-type well-formedness of a relay→agent message: `u16` fields fit. -/
def relayWF : RelayMessage → Prop
  | .resize r => r.cols < 65536 ∧ r.rows < 65536
  | _ => True

theorem parse_encode_resize (c r : Nat) (hc : c < 65536) (hr : r < 65536) :
    RelayMessage.parse (relayMessageEncode (.resize ⟨c, r⟩)) = .ok (.resize ⟨c, r⟩) := by
  have hjson : jsonParse (resizeJsonBytes ⟨c, r⟩)
      = some (.jobj [(ascii "cols", .jint c), (ascii "rows", .jint r)]) := by
    have h := jsonParse_objBytes
      [((ascii "cols", natAscii c), .jint c), ((ascii "rows", natAscii r), .jint r)]
      (by simp)
      (by
        intro t ht
        simp at ht
        rcases ht with rfl | rfl
        · exact ValParses_nat c
        · exact ValParses_nat r)
      (by
        intro t ht
        simp at ht
        rcases ht with rfl | rfl <;> exact natAscii_ne_nil _)
    simpa [resizeJsonBytes, specBytes, specJson] using h
  have hext : resizeFromJson (.jobj [(ascii "cols", .jint c), (ascii "rows", .jint r)])
      = .ok ⟨c, r⟩ := by
    have h1 : reqField [(ascii "cols", Json.jint (c : Int)), (ascii "rows", Json.jint (r : Int))]
        (ascii "cols") = .ok (.jint c) := rfl
    have h2 : reqField [(ascii "cols", Json.jint (c : Int)), (ascii "rows", Json.jint (r : Int))]
        (ascii "rows") = .ok (.jint r) := rfl
    simp only [resizeFromJson]
    rw [h1, exb_ok, asU16_jint c hc, exb_ok, h2, exb_ok, asU16_jint r hr, exb_ok]
  have hd : resizeDecode (resizeJsonBytes ⟨c, r⟩) = .ok ⟨c, r⟩ := by
    rw [resizeDecode, jsonOrErr_some _ _ hjson, exb_ok]
    exact hext
  show RelayMessage.parse (49 :: resizeJsonBytes ⟨c, r⟩) = _
  rw [RelayMessage.parse]
  norm_num
  rw [hd, exm_ok]

theorem parse_encode_snapshotReq (q : List Nat) :
    RelayMessage.parse (relayMessageEncode (.requestSnapshot ⟨q⟩))
      = .ok (.requestSnapshot ⟨q⟩) := by
  have hjson : jsonParse (snapshotReqJsonBytes ⟨q⟩)
      = some (.jobj [(ascii "requestId", .jstr q)]) := by
    have h := jsonParse_objBytes [((ascii "requestId", jsonStr q), .jstr q)]
      (by simp)
      (by
        intro t ht
        simp at ht
        subst ht
        exact ValParses_str q)
      (by
        intro t ht
        simp at ht
        subst ht
        simp [jsonStr])
    simpa [snapshotReqJsonBytes, specBytes, specJson] using h
  have hext : snapshotReqFromJson (.jobj [(ascii "requestId", .jstr q)]) = .ok ⟨q⟩ := rfl
  have hd : snapshotReqDecode (snapshotReqJsonBytes ⟨q⟩) = .ok ⟨q⟩ := by
    rw [snapshotReqDecode, jsonOrErr_some _ _ hjson, exb_ok]
    exact hext
  show RelayMessage.parse (52 :: snapshotReqJsonBytes ⟨q⟩) = _
  rw [RelayMessage.parse]
  norm_num
  rw [hd, exm_ok]

/-- Relay→agent direction of the round trip: parsing a canonically encoded
frame recovers the message. -/
theorem relay_roundtrip (m : RelayMessage) (h : relayWF m) :
    RelayMessage.parse (relayMessageEncode m) = .ok m := by
  cases m with
  | input d => rfl
  | resize r =>
    obtain ⟨c, rw⟩ := r
    exact parse_encode_resize c rw h.1 h.2
  | pause => rfl
  | resume => rfl
  | requestSnapshot q =>
    obtain ⟨qq⟩ := q
    exact parse_encode_snapshotReq qq

theorem asStr_jstr (s : List Nat) : asStr (.jstr s) = .ok s := rfl

theorem asBool_jbool (b : Bool) : asBool (.jbool b) = .ok b := rfl

theorem intAscii_ne_nil (i : Int) : intAscii i ≠ [] := by
  rw [intAscii]
  by_cases h : i < 0
  · rw [if_pos h]; simp
  · rw [if_neg h]; exact natAscii_ne_nil _

theorem jsonParse_intAscii (i : Int) : jsonParse (intAscii i) = some (.jint i) := by
  have h := ValParses_int i (intAscii i).length [] rfl
  rw [List.append_nil] at h
  unfold jsonParse
  rw [h]
  rfl

theorem parse_encode_exit (i : Int) (h1 : -2147483648 ≤ i) (h2 : i < 2147483648) :
    clientMessageDecode (ClientMessage.encode (.exitMsg i)) = .ok (.exitMsg i) := by
  show clientMessageDecode (50 :: intAscii i) = _
  rw [clientMessageDecode]
  norm_num
  rw [jsonOrErr_some _ _ (jsonParse_intAscii i), exb_ok, asI32_jint i h1 h2, exm_ok]



theorem parse_encode_handshake (v sh : List Nat) (co ro : Option Nat)
    (hc : ∀ c ∈ co, c < 65536) (hr : ∀ r ∈ ro, r < 65536) :
    clientMessageDecode (ClientMessage.encode (.handshake ⟨v, sh, co, ro⟩))
      = .ok (.handshake ⟨v, sh, co, ro⟩) := by
  cases co with
  | some c =>
    cases ro with
    | some r =>
      have hjson : jsonParse (handshakeJsonBytes ⟨v, sh, some c, some r⟩)
          = some (.jobj [(ascii "version", .jstr v), (ascii "shell", .jstr sh),
              (ascii "cols", .jint c), (ascii "rows", .jint r)]) := by
        have h := jsonParse_objBytes
          [((ascii "version", jsonStr v), .jstr v), ((ascii "shell", jsonStr sh), .jstr sh),
           ((ascii "cols", natAscii c), .jint c), ((ascii "rows", natAscii r), .jint r)]
          (by simp)
          (by
            intro t ht
            simp at ht
            rcases ht with rfl | rfl | rfl | rfl
            · exact ValParses_str v
            · exact ValParses_str sh
            · exact ValParses_nat c
            · exact ValParses_nat r)
          (by
            intro t ht
            simp at ht
            rcases ht with rfl | rfl | rfl | rfl
            · simp [jsonStr]
            · simp [jsonStr]
            · exact natAscii_ne_nil _
            · exact natAscii_ne_nil _)
        simpa [handshakeJsonBytes, specBytes, specJson] using h
      have hext : handshakeFromJson (.jobj [(ascii "version", .jstr v), (ascii "shell", .jstr sh),
          (ascii "cols", .jint (c : Int)), (ascii "rows", .jint (r : Int))])
          = .ok ⟨v, sh, some c, some r⟩ := by
        have h1 : reqField [(ascii "version", .jstr v), (ascii "shell", .jstr sh),
            (ascii "cols", .jint (c : Int)), (ascii "rows", .jint (r : Int))]
            (ascii "version") = .ok (.jstr v) := rfl
        have h2 : reqField [(ascii "version", .jstr v), (ascii "shell", .jstr sh),
            (ascii "cols", .jint (c : Int)), (ascii "rows", .jint (r : Int))]
            (ascii "shell") = .ok (.jstr sh) := rfl
        have h3 : optU16Field [(ascii "version", .jstr v), (ascii "shell", .jstr sh),
            (ascii "cols", .jint (c : Int)), (ascii "rows", .jint (r : Int))]
            (ascii "cols") = asOptU16 (.jint (c : Int)) := rfl
        have h4 : optU16Field [(ascii "version", .jstr v), (ascii "shell", .jstr sh),
            (ascii "cols", .jint (c : Int)), (ascii "rows", .jint (r : Int))]
            (ascii "rows") = asOptU16 (.jint (r : Int)) := rfl
        simp only [handshakeFromJson]
        rw [h1, exb_ok, asStr_jstr, exb_ok, h2, exb_ok, asStr_jstr, exb_ok,
          h3, asOptU16_jint c (hc c rfl), exb_ok, h4, asOptU16_jint r (hr r rfl), exb_ok]
      show clientMessageDecode (49 :: handshakeJsonBytes ⟨v, sh, some c, some r⟩) = _
      rw [clientMessageDecode]
      norm_num
      rw [jsonOrErr_some _ _ hjson, exb_ok, hext, exm_ok]
    | none =>
      have hjson : jsonParse (handshakeJsonBytes ⟨v, sh, some c, none⟩)
          = some (.jobj [(ascii "version", .jstr v), (ascii "shell", .jstr sh),
              (ascii "cols", .jint c)]) := by
        have h := jsonParse_objBytes
          [((ascii "version", jsonStr v), .jstr v), ((ascii "shell", jsonStr sh), .jstr sh),
           ((ascii "cols", natAscii c), .jint c)]
          (by simp)
          (by
            intro t ht
            simp at ht
            rcases ht with rfl | rfl | rfl
            · exact ValParses_str v
            · exact ValParses_str sh
            · exact ValParses_nat c)
          (by
            intro t ht
            simp at ht
            rcases ht with rfl | rfl | rfl
            · simp [jsonStr]
            · simp [jsonStr]
            · exact natAscii_ne_nil _)
        simpa [handshakeJsonBytes, specBytes, specJson] using h
      have hext : handshakeFromJson (.jobj [(ascii "version", .jstr v), (ascii "shell", .jstr sh),
          (ascii "cols", .jint (c : Int))]) = .ok ⟨v, sh, some c, none⟩ := by
        have h1 : reqField [(ascii "version", .jstr v), (ascii "shell", .jstr sh),
            (ascii "cols", .jint (c : Int))] (ascii "version") = .ok (.jstr v) := rfl
        have h2 : reqField [(ascii "version", .jstr v), (ascii "shell", .jstr sh),
            (ascii "cols", .jint (c : Int))] (ascii "shell") = .ok (.jstr sh) := rfl
        have h3 : optU16Field [(ascii "version", .jstr v), (ascii "shell", .jstr sh),
            (ascii "cols", .jint (c : Int))] (ascii "cols") = asOptU16 (.jint (c : Int)) := rfl
        have h4 : optU16Field [(ascii "version", .jstr v), (ascii "shell", .jstr sh),
            (ascii "cols", .jint (c : Int))] (ascii "rows") = .ok none := rfl
        simp only [handshakeFromJson]
        rw [h1, exb_ok, asStr_jstr, exb_ok, h2, exb_ok, asStr_jstr, exb_ok,
          h3, asOptU16_jint c (hc c rfl), exb_ok, h4, exb_ok]
      show clientMessageDecode (49 :: handshakeJsonBytes ⟨v, sh, some c, none⟩) = _
      rw [clientMessageDecode]
      norm_num
      rw [jsonOrErr_some _ _ hjson, exb_ok, hext, exm_ok]
  | none =>
    cases ro with
    | some r =>
      have hjson : jsonParse (handshakeJsonBytes ⟨v, sh, none, some r⟩)
          = some (.jobj [(ascii "version", .jstr v), (ascii "shell", .jstr sh),
              (ascii "rows", .jint r)]) := by
        have h := jsonParse_objBytes
          [((ascii "version", jsonStr v), .jstr v), ((ascii "shell", jsonStr sh), .jstr sh),
           ((ascii "rows", natAscii r), .jint r)]
          (by simp)
          (by
            intro t ht
            simp at ht
            rcases ht with rfl | rfl | rfl
            · exact ValParses_str v
            · exact ValParses_str sh
            · exact ValParses_nat r)
          (by
            intro t ht
            simp at ht
            rcases ht with rfl | rfl | rfl
            · simp [jsonStr]
            · simp [jsonStr]
            · exact natAscii_ne_nil _)
        simpa [handshakeJsonBytes, specBytes, specJson] using h
      have hext : handshakeFromJson (.jobj [(ascii "version", .jstr v), (ascii "shell", .jstr sh),
          (ascii "rows", .jint (r : Int))]) = .ok ⟨v, sh, none, some r⟩ := by
        have h1 : reqField [(ascii "version", .jstr v), (ascii "shell", .jstr sh),
            (ascii "rows", .jint (r : Int))] (ascii "version") = .ok (.jstr v) := rfl
        have h2 : reqField [(ascii "version", .jstr v), (ascii "shell", .jstr sh),
            (ascii "rows", .jint (r : Int))] (ascii "shell") = .ok (.jstr sh) := rfl
        have h3 : optU16Field [(ascii "version", .jstr v), (ascii "shell", .jstr sh),
            (ascii "rows", .jint (r : Int))] (ascii "cols") = .ok none := rfl
        have h4 : optU16Field [(ascii "version", .jstr v), (ascii "shell", .jstr sh),
            (ascii "rows", .jint (r : Int))] (ascii "rows") = asOptU16 (.jint (r : Int)) := rfl
        simp only [handshakeFromJson]
        rw [h1, exb_ok, asStr_jstr, exb_ok, h2, exb_ok, asStr_jstr, exb_ok,
          h3, exb_ok, h4, asOptU16_jint r (hr r rfl), exb_ok]
      show clientMessageDecode (49 :: handshakeJsonBytes ⟨v, sh, none, some r⟩) = _
      rw [clientMessageDecode]
      norm_num
      rw [jsonOrErr_some _ _ hjson, exb_ok, hext, exm_ok]
    | none =>
      have hjson : jsonParse (handshakeJsonBytes ⟨v, sh, none, none⟩)
          = some (.jobj [(ascii "version", .jstr v), (ascii "shell", .jstr sh)]) := by
        have h := jsonParse_objBytes
          [((ascii "version", jsonStr v), .jstr v), ((ascii "shell", jsonStr sh), .jstr sh)]
          (by simp)
          (by
            intro t ht
            simp at ht
            rcases ht with rfl | rfl
            · exact ValParses_str v
            · exact ValParses_str sh)
          (by
            intro t ht
            simp at ht
            rcases ht with rfl | rfl
            · simp [jsonStr]
            · simp [jsonStr])
        simpa [handshakeJsonBytes, specBytes, specJson] using h
      have hext : handshakeFromJson (.jobj [(ascii "version", .jstr v), (ascii "shell", .jstr sh)])
          = .ok ⟨v, sh, none, none⟩ := by
        have h1 : reqField [(ascii "version", .jstr v), (ascii "shell", .jstr sh)]
            (ascii "version") = .ok (.jstr v) := rfl
        have h2 : reqField [(ascii "version", .jstr v), (ascii "shell", .jstr sh)]
            (ascii "shell") = .ok (.jstr sh) := rfl
        have h3 : optU16Field [(ascii "version", .jstr v), (ascii "shell", .jstr sh)]
            (ascii "cols") = .ok none := rfl
        have h4 : optU16Field [(ascii "version", .jstr v), (ascii "shell", .jstr sh)]
            (ascii "rows") = .ok none := rfl
        simp only [handshakeFromJson]
        rw [h1, exb_ok, asStr_jstr, exb_ok, h2, exb_ok, asStr_jstr, exb_ok,
          h3, exb_ok, h4, exb_ok]
      show clientMessageDecode (49 :: handshakeJsonBytes ⟨v, sh, none, none⟩) = _
      rw [clientMessageDecode]
      norm_num
      rw [jsonOrErr_some _ _ hjson, exb_ok, hext, exm_ok]



theorem parse_encode_snapshot (q sc : List Nat) (c r x y : Nat)
    (hsc : ∀ b ∈ sc, b < 256) (hc : c < 65536) (hr : r < 65536)
    (hx : x < 65536) (hy : y < 65536) :
    clientMessageDecode (ClientMessage.encode (.snapshot ⟨q, sc, c, r, x, y⟩))
      = .ok (.snapshot ⟨q, sc, c, r, x, y⟩) := by
  have hjson : jsonParse (snapshotJsonBytes ⟨q, sc, c, r, x, y⟩)
      = some (.jobj [(ascii "requestId", .jstr q), (ascii "screen", .jstr (b64encode sc)),
          (ascii "cols", .jint c), (ascii "rows", .jint r),
          (ascii "cursorX", .jint x), (ascii "cursorY", .jint y)]) := by
    have h := jsonParse_objBytes
      [((ascii "requestId", jsonStr q), .jstr q),
       ((ascii "screen", jsonStr (b64encode sc)), .jstr (b64encode sc)),
       ((ascii "cols", natAscii c), .jint c), ((ascii "rows", natAscii r), .jint r),
       ((ascii "cursorX", natAscii x), .jint x), ((ascii "cursorY", natAscii y), .jint y)]
      (by simp)
      (by
        intro t ht
        simp at ht
        rcases ht with rfl | rfl | rfl | rfl | rfl | rfl
        · exact ValParses_str q
        · exact ValParses_str (b64encode sc)
        · exact ValParses_nat c
        · exact ValParses_nat r
        · exact ValParses_nat x
        · exact ValParses_nat y)
      (by
        intro t ht
        simp at ht
        rcases ht with rfl | rfl | rfl | rfl | rfl | rfl
        · simp [jsonStr]
        · simp [jsonStr]
        · exact natAscii_ne_nil _
        · exact natAscii_ne_nil _
        · exact natAscii_ne_nil _
        · exact natAscii_ne_nil _)
    simpa [snapshotJsonBytes, specBytes, specJson] using h
  have hext : snapshotFromJson (.jobj [(ascii "requestId", .jstr q),
      (ascii "screen", .jstr (b64encode sc)),
      (ascii "cols", .jint (c : Int)), (ascii "rows", .jint (r : Int)),
      (ascii "cursorX", .jint (x : Int)), (ascii "cursorY", .jint (y : Int))])
      = .ok ⟨q, sc, c, r, x, y⟩ := by
    have h1 : reqField [(ascii "requestId", .jstr q), (ascii "screen", .jstr (b64encode sc)),
        (ascii "cols", .jint (c : Int)), (ascii "rows", .jint (r : Int)),
        (ascii "cursorX", .jint (x : Int)), (ascii "cursorY", .jint (y : Int))]
        (ascii "requestId") = .ok (.jstr q) := rfl
    have h2 : reqField [(ascii "requestId", .jstr q), (ascii "screen", .jstr (b64encode sc)),
        (ascii "cols", .jint (c : Int)), (ascii "rows", .jint (r : Int)),
        (ascii "cursorX", .jint (x : Int)), (ascii "cursorY", .jint (y : Int))]
        (ascii "screen") = .ok (.jstr (b64encode sc)) := rfl
    have h3 : reqField [(ascii "requestId", .jstr q), (ascii "screen", .jstr (b64encode sc)),
        (ascii "cols", .jint (c : Int)), (ascii "rows", .jint (r : Int)),
        (ascii "cursorX", .jint (x : Int)), (ascii "cursorY", .jint (y : Int))]
        (ascii "cols") = .ok (.jint (c : Int)) := rfl
    have h4 : reqField [(ascii "requestId", .jstr q), (ascii "screen", .jstr (b64encode sc)),
        (ascii "cols", .jint (c : Int)), (ascii "rows", .jint (r : Int)),
        (ascii "cursorX", .jint (x : Int)), (ascii "cursorY", .jint (y : Int))]
        (ascii "rows") = .ok (.jint (r : Int)) := rfl
    have h5 : reqField [(ascii "requestId", .jstr q), (ascii "screen", .jstr (b64encode sc)),
        (ascii "cols", .jint (c : Int)), (ascii "rows", .jint (r : Int)),
        (ascii "cursorX", .jint (x : Int)), (ascii "cursorY", .jint (y : Int))]
        (ascii "cursorX") = .ok (.jint (x : Int)) := rfl
    have h6 : reqField [(ascii "requestId", .jstr q), (ascii "screen", .jstr (b64encode sc)),
        (ascii "cols", .jint (c : Int)), (ascii "rows", .jint (r : Int)),
        (ascii "cursorX", .jint (x : Int)), (ascii "cursorY", .jint (y : Int))]
        (ascii "cursorY") = .ok (.jint (y : Int)) := rfl
    simp only [snapshotFromJson]
    rw [h1, exb_ok, asStr_jstr, exb_ok, h2, exb_ok, asB64_encode sc hsc, exb_ok,
      h3, exb_ok, asU16_jint c hc, exb_ok, h4, exb_ok, asU16_jint r hr, exb_ok,
      h5, exb_ok, asU16_jint x hx, exb_ok, h6, exb_ok, asU16_jint y hy, exb_ok]
  show clientMessageDecode (51 :: snapshotJsonBytes ⟨q, sc, c, r, x, y⟩) = _
  rw [clientMessageDecode]
  norm_num
  rw [jsonOrErr_some _ _ hjson, exb_ok, hext, exm_ok]

/-- Rust-type well-formedness of an agent→relay message: numeric fields fit
their declared machine types and screen bytes are bytes. -/
def clientWF : ClientMessage → Prop
  | .output _ => True
  | .handshake h => (∀ c ∈ h.cols, c < 65536) ∧ (∀ r ∈ h.rows, r < 65536)
  | .exitMsg c => -2147483648 ≤ c ∧ c < 2147483648
  | .snapshot s => (∀ b ∈ s.screen, b < 256) ∧ s.cols < 65536 ∧ s.rows < 65536
      ∧ s.cursorX < 65536 ∧ s.cursorY < 65536

/-- Agent→relay direction of the round trip. -/
theorem client_roundtrip (m : ClientMessage) (h : clientWF m) :
    clientMessageDecode (ClientMessage.encode m) = .ok m := by
  cases m with
  | output d => rfl
  | handshake hs =>
    obtain ⟨v, sh, co, ro⟩ := hs
    exact parse_encode_handshake v sh co ro h.1 h.2
  | exitMsg c => exact parse_encode_exit c h.1 h.2
  | snapshot s =>
    obtain ⟨q, sc, c, r, x, y⟩ := s
    exact parse_encode_snapshot q sc c r x y h.1 h.2.1 h.2.2.1 h.2.2.2.1 h.2.2.2.2



theorem parse_encode_startTerm (n : List Nat) (c r : Nat) (q : List Nat)
    (hc : c < 65536) (hr : r < 65536) :
    ControlMessage.parse (controlMessageEncode (.startTerminal n c r q))
      = .ok (.startTerminal n c r q) := by
  have hjson : jsonParse (controlMessageEncode (.startTerminal n c r q))
      = some (.jobj [(ascii "type", .jstr (ascii "start_terminal")), (ascii "name", .jstr n),
          (ascii "cols", .jint c), (ascii "rows", .jint r), (ascii "requestId", .jstr q)]) := by
    have h := jsonParse_objBytes
      [((ascii "type", jsonStr (ascii "start_terminal")), .jstr (ascii "start_terminal")),
       ((ascii "name", jsonStr n), .jstr n),
       ((ascii "cols", natAscii c), .jint c), ((ascii "rows", natAscii r), .jint r),
       ((ascii "requestId", jsonStr q), .jstr q)]
      (by simp)
      (by
        intro t ht
        simp at ht
        rcases ht with rfl | rfl | rfl | rfl | rfl
        · exact ValParses_str (ascii "start_terminal")
        · exact ValParses_str n
        · exact ValParses_nat c
        · exact ValParses_nat r
        · exact ValParses_str q)
      (by
        intro t ht
        simp at ht
        rcases ht with rfl | rfl | rfl | rfl | rfl
        · simp [jsonStr]
        · simp [jsonStr]
        · exact natAscii_ne_nil _
        · exact natAscii_ne_nil _
        · simp [jsonStr])
    simpa [controlMessageEncode, specBytes, specJson] using h
  have hext : controlMessageFromJson (.jobj [(ascii "type", .jstr (ascii "start_terminal")),
      (ascii "name", .jstr n), (ascii "cols", .jint (c : Int)), (ascii "rows", .jint (r : Int)),
      (ascii "requestId", .jstr q)]) = .ok (.startTerminal n c r q) := by
    have ht : reqField [(ascii "type", .jstr (ascii "start_terminal")), (ascii "name", .jstr n),
        (ascii "cols", .jint (c : Int)), (ascii "rows", .jint (r : Int)),
        (ascii "requestId", .jstr q)] (ascii "type") = .ok (.jstr (ascii "start_terminal")) := rfl
    have h1 : reqField [(ascii "type", .jstr (ascii "start_terminal")), (ascii "name", .jstr n),
        (ascii "cols", .jint (c : Int)), (ascii "rows", .jint (r : Int)),
        (ascii "requestId", .jstr q)] (ascii "name") = .ok (.jstr n) := rfl
    have h2 : reqField [(ascii "type", .jstr (ascii "start_terminal")), (ascii "name", .jstr n),
        (ascii "cols", .jint (c : Int)), (ascii "rows", .jint (r : Int)),
        (ascii "requestId", .jstr q)] (ascii "cols") = .ok (.jint (c : Int)) := rfl
    have h3 : reqField [(ascii "type", .jstr (ascii "start_terminal")), (ascii "name", .jstr n),
        (ascii "cols", .jint (c : Int)), (ascii "rows", .jint (r : Int)),
        (ascii "requestId", .jstr q)] (ascii "rows") = .ok (.jint (r : Int)) := rfl
    have h4 : reqField [(ascii "type", .jstr (ascii "start_terminal")), (ascii "name", .jstr n),
        (ascii "cols", .jint (c : Int)), (ascii "rows", .jint (r : Int)),
        (ascii "requestId", .jstr q)] (ascii "requestId") = .ok (.jstr q) := rfl
    simp only [controlMessageFromJson]
    rw [ht, exb_ok]
    simp only []
    rw [if_true]
    simp only [startTermDecode]
    rw [h1, exb_ok, asStr_jstr, exb_ok, h2, exb_ok, asU16_jint c hc, exb_ok,
      h3, exb_ok, asU16_jint r hr, exb_ok, h4, exb_ok, asStr_jstr, exb_ok]
  unfold ControlMessage.parse
  rw [jsonOrErr_some _ _ hjson, exb_ok, hext]



theorem parse_encode_closeTerm (n : List Nat) (sg : Option Int)
    (hs : ∀ s ∈ sg, -2147483648 ≤ s ∧ s < 2147483648) :
    ControlMessage.parse (controlMessageEncode (.closeTerminal n sg))
      = .ok (.closeTerminal n sg) := by
  cases sg with
  | some s =>
    have hjson : jsonParse (controlMessageEncode (.closeTerminal n (some s)))
        = some (.jobj [(ascii "type", .jstr (ascii "close_terminal")), (ascii "name", .jstr n),
            (ascii "signal", .jint s)]) := by
      have h := jsonParse_objBytes
        [((ascii "type", jsonStr (ascii "close_terminal")), .jstr (ascii "close_terminal")),
         ((ascii "name", jsonStr n), .jstr n),
         ((ascii "signal", intAscii s), .jint s)]
        (by simp)
        (by
          intro t ht
          simp at ht
          rcases ht with rfl | rfl | rfl
          · exact ValParses_str (ascii "close_terminal")
          · exact ValParses_str n
          · exact ValParses_int s)
        (by
          intro t ht
          simp at ht
          rcases ht with rfl | rfl | rfl
          · simp [jsonStr]
          · simp [jsonStr]
          · exact intAscii_ne_nil _)
      simpa [controlMessageEncode, specBytes, specJson] using h
    have hext : controlMessageFromJson (.jobj [(ascii "type", .jstr (ascii "close_terminal")),
        (ascii "name", .jstr n), (ascii "signal", .jint s)])
        = .ok (.closeTerminal n (some s)) := by
      have ht : reqField [(ascii "type", .jstr (ascii "close_terminal")), (ascii "name", .jstr n),
          (ascii "signal", .jint s)] (ascii "type") = .ok (.jstr (ascii "close_terminal")) := rfl
      have h1 : reqField [(ascii "type", .jstr (ascii "close_terminal")), (ascii "name", .jstr n),
          (ascii "signal", .jint s)] (ascii "name") = .ok (.jstr n) := rfl
      have h2 : optI32Field [(ascii "type", .jstr (ascii "close_terminal")), (ascii "name", .jstr n),
          (ascii "signal", .jint s)] (ascii "signal") = asOptI32 (.jint s) := rfl
      simp only [controlMessageFromJson]
      rw [ht, exb_ok]
      simp only []
      rw [if_neg (by decide), if_true]
      simp only [closeTermDecode]
      rw [h1, exb_ok, asStr_jstr, exb_ok, h2, asOptI32_jint s (hs s rfl).1 (hs s rfl).2, exb_ok]
    unfold ControlMessage.parse
    rw [jsonOrErr_some _ _ hjson, exb_ok, hext]
  | none =>
    have hjson : jsonParse (controlMessageEncode (.closeTerminal n none))
        = some (.jobj [(ascii "type", .jstr (ascii "close_terminal")),
            (ascii "name", .jstr n)]) := by
      have h := jsonParse_objBytes
        [((ascii "type", jsonStr (ascii "close_terminal")), .jstr (ascii "close_terminal")),
         ((ascii "name", jsonStr n), .jstr n)]
        (by simp)
        (by
          intro t ht
          simp at ht
          rcases ht with rfl | rfl
          · exact ValParses_str (ascii "close_terminal")
          · exact ValParses_str n)
        (by
          intro t ht
          simp at ht
          rcases ht with rfl | rfl
          · simp [jsonStr]
          · simp [jsonStr])
      simpa [controlMessageEncode, specBytes, specJson] using h
    have hext : controlMessageFromJson (.jobj [(ascii "type", .jstr (ascii "close_terminal")),
        (ascii "name", .jstr n)]) = .ok (.closeTerminal n none) := by
      have ht : reqField [(ascii "type", .jstr (ascii "close_terminal")), (ascii "name", .jstr n)]
          (ascii "type") = .ok (.jstr (ascii "close_terminal")) := rfl
      have h1 : reqField [(ascii "type", .jstr (ascii "close_terminal")), (ascii "name", .jstr n)]
          (ascii "name") = .ok (.jstr n) := rfl
      have h2 : optI32Field [(ascii "type", .jstr (ascii "close_terminal")), (ascii "name", .jstr n)]
          (ascii "signal") = .ok none := rfl
      simp only [controlMessageFromJson]
      rw [ht, exb_ok]
      simp only []
      rw [if_neg (by decide), if_true]
      simp only [closeTermDecode]
      rw [h1, exb_ok, asStr_jstr, exb_ok, h2, exb_ok]
    unfold ControlMessage.parse
    rw [jsonOrErr_some _ _ hjson, exb_ok, hext]

/-- Well-formedness of a relay→agent control command: numeric fields fit. -/
def controlMsgWF : ControlMessage → Prop
  | .startTerminal _ c r _ => c < 65536 ∧ r < 65536
  | .closeTerminal _ sg => ∀ s ∈ sg, -2147483648 ≤ s ∧ s < 2147483648

/-- Relay→agent direction of the control round trip. -/
theorem control_roundtrip (m : ControlMessage) (h : controlMsgWF m) :
    ControlMessage.parse (controlMessageEncode m) = .ok m := by
  cases m with
  | startTerminal n c r q => exact parse_encode_startTerm n c r q h.1 h.2
  | closeTerminal n sg => exact parse_encode_closeTerm n sg h



theorem parse_encode_ctrlHs (v hn u w : List Nat) :
    controlResponseDecode (ControlResponse.encode (.controlHandshake v hn u w))
      = .ok (.controlHandshake v hn u w) := by
  have hjson : jsonParse (ControlResponse.encode (.controlHandshake v hn u w))
      = some (.jobj [(ascii "type", .jstr (ascii "control_handshake")),
          (ascii "version", .jstr v), (ascii "hostname", .jstr hn),
          (ascii "username", .jstr u), (ascii "workingDir", .jstr w)]) := by
    have h := jsonParse_objBytes
      [((ascii "type", jsonStr (ascii "control_handshake")), .jstr (ascii "control_handshake")),
       ((ascii "version", jsonStr v), .jstr v), ((ascii "hostname", jsonStr hn), .jstr hn),
       ((ascii "username", jsonStr u), .jstr u), ((ascii "workingDir", jsonStr w), .jstr w)]
      (by simp)
      (by
        intro t ht
        simp at ht
        rcases ht with rfl | rfl | rfl | rfl | rfl
        · exact ValParses_str (ascii "control_handshake")
        · exact ValParses_str v
        · exact ValParses_str hn
        · exact ValParses_str u
        · exact ValParses_str w)
      (by
        intro t ht
        simp at ht
        rcases ht with rfl | rfl | rfl | rfl | rfl <;> simp [jsonStr])
    simpa [ControlResponse.encode, specBytes, specJson] using h
  have hext : controlResponseFromJson (.jobj [(ascii "type", .jstr (ascii "control_handshake")),
      (ascii "version", .jstr v), (ascii "hostname", .jstr hn),
      (ascii "username", .jstr u), (ascii "workingDir", .jstr w)])
      = .ok (.controlHandshake v hn u w) := by
    have ht : reqField [(ascii "type", .jstr (ascii "control_handshake")),
        (ascii "version", .jstr v), (ascii "hostname", .jstr hn),
        (ascii "username", .jstr u), (ascii "workingDir", .jstr w)]
        (ascii "type") = .ok (.jstr (ascii "control_handshake")) := rfl
    have h1 : reqField [(ascii "type", .jstr (ascii "control_handshake")),
        (ascii "version", .jstr v), (ascii "hostname", .jstr hn),
        (ascii "username", .jstr u), (ascii "workingDir", .jstr w)]
        (ascii "version") = .ok (.jstr v) := rfl
    have h2 : reqField [(ascii "type", .jstr (ascii "control_handshake")),
        (ascii "version", .jstr v), (ascii "hostname", .jstr hn),
        (ascii "username", .jstr u), (ascii "workingDir", .jstr w)]
        (ascii "hostname") = .ok (.jstr hn) := rfl
    have h3 : reqField [(ascii "type", .jstr (ascii "control_handshake")),
        (ascii "version", .jstr v), (ascii "hostname", .jstr hn),
        (ascii "username", .jstr u), (ascii "workingDir", .jstr w)]
        (ascii "username") = .ok (.jstr u) := rfl
    have h4 : reqField [(ascii "type", .jstr (ascii "control_handshake")),
        (ascii "version", .jstr v), (ascii "hostname", .jstr hn),
        (ascii "username", .jstr u), (ascii "workingDir", .jstr w)]
        (ascii "workingDir") = .ok (.jstr w) := rfl
    simp only [controlResponseFromJson]
    rw [ht, exb_ok]
    simp only []
    rw [if_true]
    simp only [ctrlHsDecode]
    rw [h1, exb_ok, asStr_jstr, exb_ok, h2, exb_ok, asStr_jstr, exb_ok,
      h3, exb_ok, asStr_jstr, exb_ok, h4, exb_ok, asStr_jstr, exb_ok]
  unfold controlResponseDecode
  rw [jsonOrErr_some _ _ hjson, exb_ok, hext]

theorem parse_encode_termClosed (n : List Nat) (c : Int)
    (h1c : -2147483648 ≤ c) (h2c : c < 2147483648) :
    controlResponseDecode (ControlResponse.encode (.terminalClosed n c))
      = .ok (.terminalClosed n c) := by
  have hjson : jsonParse (ControlResponse.encode (.terminalClosed n c))
      = some (.jobj [(ascii "type", .jstr (ascii "terminal_closed")),
          (ascii "name", .jstr n), (ascii "exitCode", .jint c)]) := by
    have h := jsonParse_objBytes
      [((ascii "type", jsonStr (ascii "terminal_closed")), .jstr (ascii "terminal_closed")),
       ((ascii "name", jsonStr n), .jstr n), ((ascii "exitCode", intAscii c), .jint c)]
      (by simp)
      (by
        intro t ht
        simp at ht
        rcases ht with rfl | rfl | rfl
        · exact ValParses_str (ascii "terminal_closed")
        · exact ValParses_str n
        · exact ValParses_int c)
      (by
        intro t ht
        simp at ht
        rcases ht with rfl | rfl | rfl
        · simp [jsonStr]
        · simp [jsonStr]
        · exact intAscii_ne_nil _)
    simpa [ControlResponse.encode, specBytes, specJson] using h
  have hext : controlResponseFromJson (.jobj [(ascii "type", .jstr (ascii "terminal_closed")),
      (ascii "name", .jstr n), (ascii "exitCode", .jint c)])
      = .ok (.terminalClosed n c) := by
    have ht : reqField [(ascii "type", .jstr (ascii "terminal_closed")), (ascii "name", .jstr n),
        (ascii "exitCode", .jint c)] (ascii "type") = .ok (.jstr (ascii "terminal_closed")) := rfl
    have h1 : reqField [(ascii "type", .jstr (ascii "terminal_closed")), (ascii "name", .jstr n),
        (ascii "exitCode", .jint c)] (ascii "name") = .ok (.jstr n) := rfl
    have h2 : reqField [(ascii "type", .jstr (ascii "terminal_closed")), (ascii "name", .jstr n),
        (ascii "exitCode", .jint c)] (ascii "exitCode") = .ok (.jint c) := rfl
    simp only [controlResponseFromJson]
    rw [ht, exb_ok]
    simp only []
    rw [if_neg (by decide), if_neg (by decide), if_true]
    simp only [termClosedDecode]
    rw [h1, exb_ok, asStr_jstr, exb_ok, h2, exb_ok, asI32_jint c h1c h2c, exb_ok]
  unfold controlResponseDecode
  rw [jsonOrErr_some _ _ hjson, exb_ok, hext]



theorem parse_encode_termStarted (n q : List Nat) (su : Bool) (er : Option (List Nat)) :
    controlResponseDecode (ControlResponse.encode (.terminalStarted n q su er))
      = .ok (.terminalStarted n q su er) := by
  cases er with
  | some m =>
    have hjson : jsonParse (ControlResponse.encode (.terminalStarted n q su (some m)))
        = some (.jobj [(ascii "type", .jstr (ascii "terminal_started")),
            (ascii "name", .jstr n), (ascii "requestId", .jstr q),
            (ascii "success", .jbool su), (ascii "error", .jstr m)]) := by
      have h := jsonParse_objBytes
        [((ascii "type", jsonStr (ascii "terminal_started")), .jstr (ascii "terminal_started")),
         ((ascii "name", jsonStr n), .jstr n), ((ascii "requestId", jsonStr q), .jstr q),
         ((ascii "success", boolBytes su), .jbool su), ((ascii "error", jsonStr m), .jstr m)]
        (by simp)
        (by
          intro t ht
          simp at ht
          rcases ht with rfl | rfl | rfl | rfl | rfl
          · exact ValParses_str (ascii "terminal_started")
          · exact ValParses_str n
          · exact ValParses_str q
          · exact ValParses_bool su
          · exact ValParses_str m)
        (by
          intro t ht
          simp at ht
          rcases ht with rfl | rfl | rfl | rfl | rfl
          · simp [jsonStr]
          · simp [jsonStr]
          · simp [jsonStr]
          · cases su <;> decide
          · simp [jsonStr])
      simpa [ControlResponse.encode, specBytes, specJson] using h
    have hext : controlResponseFromJson (.jobj [(ascii "type", .jstr (ascii "terminal_started")),
        (ascii "name", .jstr n), (ascii "requestId", .jstr q),
        (ascii "success", .jbool su), (ascii "error", .jstr m)])
        = .ok (.terminalStarted n q su (some m)) := by
      have ht : reqField [(ascii "type", .jstr (ascii "terminal_started")), (ascii "name", .jstr n),
          (ascii "requestId", .jstr q), (ascii "success", .jbool su), (ascii "error", .jstr m)]
          (ascii "type") = .ok (.jstr (ascii "terminal_started")) := rfl
      have h1 : reqField [(ascii "type", .jstr (ascii "terminal_started")), (ascii "name", .jstr n),
          (ascii "requestId", .jstr q), (ascii "success", .jbool su), (ascii "error", .jstr m)]
          (ascii "name") = .ok (.jstr n) := rfl
      have h2 : reqField [(ascii "type", .jstr (ascii "terminal_started")), (ascii "name", .jstr n),
          (ascii "requestId", .jstr q), (ascii "success", .jbool su), (ascii "error", .jstr m)]
          (ascii "requestId") = .ok (.jstr q) := rfl
      have h3 : reqField [(ascii "type", .jstr (ascii "terminal_started")), (ascii "name", .jstr n),
          (ascii "requestId", .jstr q), (ascii "success", .jbool su), (ascii "error", .jstr m)]
          (ascii "success") = .ok (.jbool su) := rfl
      have h4 : optStrField [(ascii "type", .jstr (ascii "terminal_started")), (ascii "name", .jstr n),
          (ascii "requestId", .jstr q), (ascii "success", .jbool su), (ascii "error", .jstr m)]
          (ascii "error") = .ok (some m) := rfl
      simp only [controlResponseFromJson]
      rw [ht, exb_ok]
      simp only []
      rw [if_neg (by decide), if_true]
      simp only [termStartedDecode]
      rw [h1, exb_ok, asStr_jstr, exb_ok, h2, exb_ok, asStr_jstr, exb_ok,
        h3, exb_ok, asBool_jbool, exb_ok, h4, exb_ok]
    unfold controlResponseDecode
    rw [jsonOrErr_some _ _ hjson, exb_ok, hext]
  | none =>
    have hjson : jsonParse (ControlResponse.encode (.terminalStarted n q su none))
        = some (.jobj [(ascii "type", .jstr (ascii "terminal_started")),
            (ascii "name", .jstr n), (ascii "requestId", .jstr q),
            (ascii "success", .jbool su)]) := by
      have h := jsonParse_objBytes
        [((ascii "type", jsonStr (ascii "terminal_started")), .jstr (ascii "terminal_started")),
         ((ascii "name", jsonStr n), .jstr n), ((ascii "requestId", jsonStr q), .jstr q),
         ((ascii "success", boolBytes su), .jbool su)]
        (by simp)
        (by
          intro t ht
          simp at ht
          rcases ht with rfl | rfl | rfl | rfl
          · exact ValParses_str (ascii "terminal_started")
          · exact ValParses_str n
          · exact ValParses_str q
          · exact ValParses_bool su)
        (by
          intro t ht
          simp at ht
          rcases ht with rfl | rfl | rfl | rfl
          · simp [jsonStr]
          · simp [jsonStr]
          · simp [jsonStr]
          · cases su <;> decide)
      simpa [ControlResponse.encode, specBytes, specJson] using h
    have hext : controlResponseFromJson (.jobj [(ascii "type", .jstr (ascii "terminal_started")),
        (ascii "name", .jstr n), (ascii "requestId", .jstr q), (ascii "success", .jbool su)])
        = .ok (.terminalStarted n q su none) := by
      have ht : reqField [(ascii "type", .jstr (ascii "terminal_started")), (ascii "name", .jstr n),
          (ascii "requestId", .jstr q), (ascii "success", .jbool su)]
          (ascii "type") = .ok (.jstr (ascii "terminal_started")) := rfl
      have h1 : reqField [(ascii "type", .jstr (ascii "terminal_started")), (ascii "name", .jstr n),
          (ascii "requestId", .jstr q), (ascii "success", .jbool su)]
          (ascii "name") = .ok (.jstr n) := rfl
      have h2 : reqField [(ascii "type", .jstr (ascii "terminal_started")), (ascii "name", .jstr n),
          (ascii "requestId", .jstr q), (ascii "success", .jbool su)]
          (ascii "requestId") = .ok (.jstr q) := rfl
      have h3 : reqField [(ascii "type", .jstr (ascii "terminal_started")), (ascii "name", .jstr n),
          (ascii "requestId", .jstr q), (ascii "success", .jbool su)]
          (ascii "success") = .ok (.jbool su) := rfl
      have h4 : optStrField [(ascii "type", .jstr (ascii "terminal_started")), (ascii "name", .jstr n),
          (ascii "requestId", .jstr q), (ascii "success", .jbool su)]
          (ascii "error") = .ok none := rfl
      simp only [controlResponseFromJson]
      rw [ht, exb_ok]
      simp only []
      rw [if_neg (by decide), if_true]
      simp only [termStartedDecode]
      rw [h1, exb_ok, asStr_jstr, exb_ok, h2, exb_ok, asStr_jstr, exb_ok,
        h3, exb_ok, asBool_jbool, exb_ok, h4, exb_ok]
    unfold controlResponseDecode
    rw [jsonOrErr_some _ _ hjson, exb_ok, hext]

/-- Well-formedness of an agent→relay control response: the exit code fits
an `i32`. -/
def controlRespWF : ControlResponse → Prop
  | .controlHandshake _ _ _ _ => True
  | .terminalStarted _ _ _ _ => True
  | .terminalClosed _ c => -2147483648 ≤ c ∧ c < 2147483648

/-- Agent→relay direction of the control round trip. -/
theorem controlResponse_roundtrip (m : ControlResponse) (h : controlRespWF m) :
    controlResponseDecode (ControlResponse.encode m) = .ok m := by
  cases m with
  | controlHandshake v hn u w => exact parse_encode_ctrlHs v hn u w
  | terminalStarted n q su er => exact parse_encode_termStarted n q su er
  | terminalClosed n c => exact parse_encode_termClosed n c h.1 h.2



/-- C2: for every well-formed wire frame — the canonical encoding of a
well-typed message, with JSON field order fixed by the schema — decoding it
succeeds and re-encoding the decoded value yields byte-identical output.
This covers the binary data frames in both directions (tags `'0'..'4'`
relay→agent, `'0'..'3'` agent→relay) and the JSON control frames in both
directions. -/
theorem c2_wire_codec_roundtrip :
    (∀ m : RelayMessage, relayWF m →
      ∃ m2, RelayMessage.parse (relayMessageEncode m) = .ok m2
        ∧ relayMessageEncode m2 = relayMessageEncode m)
    ∧ (∀ m : ClientMessage, clientWF m →
      ∃ m2, clientMessageDecode (ClientMessage.encode m) = .ok m2
        ∧ ClientMessage.encode m2 = ClientMessage.encode m)
    ∧ (∀ m : ControlMessage, controlMsgWF m →
      ∃ m2, ControlMessage.parse (controlMessageEncode m) = .ok m2
        ∧ controlMessageEncode m2 = controlMessageEncode m)
    ∧ (∀ m : ControlResponse, controlRespWF m →
      ∃ m2, controlResponseDecode (ControlResponse.encode m) = .ok m2
        ∧ ControlResponse.encode m2 = ControlResponse.encode m) :=
  ⟨fun m h => ⟨m, relay_roundtrip m h, rfl⟩,
   fun m h => ⟨m, client_roundtrip m h, rfl⟩,
   fun m h => ⟨m, control_roundtrip m h, rfl⟩,
   fun m h => ⟨m, controlResponse_roundtrip m h, rfl⟩⟩

theorem c2_wire_codec_roundtrip_witness :
    (∃ m2, RelayMessage.parse (relayMessageEncode (.resize ⟨80, 24⟩)) = .ok m2
      ∧ relayMessageEncode m2 = relayMessageEncode (.resize ⟨80, 24⟩))
    ∧ (∃ m2, clientMessageDecode (ClientMessage.encode (.exitMsg 0)) = .ok m2
      ∧ ClientMessage.encode m2 = ClientMessage.encode (.exitMsg 0))
    ∧ (∃ m2, ControlMessage.parse (controlMessageEncode
        (.closeTerminal (ascii "main") (some 15))) = .ok m2
      ∧ controlMessageEncode m2 = controlMessageEncode (.closeTerminal (ascii "main") (some 15)))
    ∧ (∃ m2, controlResponseDecode (ControlResponse.encode
        (.terminalClosed (ascii "main") 0)) = .ok m2
      ∧ ControlResponse.encode m2 = ControlResponse.encode (.terminalClosed (ascii "main") 0)) :=
  ⟨c2_wire_codec_roundtrip.1 (.resize ⟨80, 24⟩) (by show 80 < 65536 ∧ 24 < 65536; decide),
   c2_wire_codec_roundtrip.2.1 (.exitMsg 0)
     (by show -2147483648 ≤ (0 : Int) ∧ (0 : Int) < 2147483648; decide),
   c2_wire_codec_roundtrip.2.2.1 (.closeTerminal (ascii "main") (some 15))
     (by intro s hs; simp at hs; subst hs; decide),
   c2_wire_codec_roundtrip.2.2.2 (.terminalClosed (ascii "main") 0)
     (by show -2147483648 ≤ (0 : Int) ∧ (0 : Int) < 2147483648; decide)⟩


/-! ## The bridge (`bridge.rs`)

`Bridge::run` is a select loop over two channels (PTY output, relay
messages); after each handled event it polls `try_wait` on the child.  The
loop is modelled as a fold over a list of iteration inputs, each an event
plus the result of that iteration's exit poll (`none` = still running,
`some su` = exited, `su` the status's `success()`).  Channel sends are
modelled as always succeeding; the vt100 emulator is a state the loop
threads through an arbitrary `proc` transition (its internals are the
`vt100` crate's, not this repository's). -/

/-- The observable state of the vt100 parser: `size()` is `(rows, cols)`,
`cursor_position()` is `(row, col)`, `contents_formatted()` is a byte
string. -/
structure VtState where
  rows : Nat
  cols : Nat
  cursorRow : Nat
  cursorCol : Nat
  contents : List Nat
deriving DecidableEq

/-- `screen.size()` — `(rows, cols)`. -/
def VtState.size (v : VtState) : Nat × Nat := (v.rows, v.cols)

/-- `screen.cursor_position()` — `(row, col)`. -/
def VtState.cursorPosition (v : VtState) : Nat × Nat := (v.cursorRow, v.cursorCol)

/-- `parser.set_size(rows, cols)`. -/
def vtSetSize (v : VtState) (rows cols : Nat) : VtState :=
  { v with rows := rows, cols := cols }

/-- The bridge's mutable state: the pause flag, the paused-output backlog
(FIFO: new chunks pushed at the back), and the vt100 parser state. -/
structure BridgeState where
  paused : Bool
  buffer : List (List Nat)
  vt : VtState
deriving DecidableEq

/-- One event the select loop can wake on. -/
inductive BEvent where
  | ptyChunk (d : List Nat)
  | ptyClosed
  | relayMsg (m : RelayMessage)
  | relayClosed
deriving DecidableEq

/-- One loop iteration's input: the event, and what this iteration's
`try_wait` poll returns (`none` = still running or poll error, `some su` =
exited with `success() = su`). -/
structure BridgeInput where
  ev : BEvent
  exited : Option Bool
deriving DecidableEq

/-- How `Bridge::run` returns. -/
inductive BridgeOutcome where
  | exited (code : Int)
  | disconnected
  | ptyEof
deriving DecidableEq

/-- `Bridge::create_snapshot`: cols/rows from `size().1`/`size().0`,
`cursor_x` the cursor column and `cursor_y` the cursor row. -/
def createSnapshot (vt : VtState) (rid : List Nat) : SnapshotMessage :=
  { requestId := rid
    screen := vt.contents
    cols := vt.size.2
    rows := vt.size.1
    cursorX := vt.cursorPosition.2
    cursorY := vt.cursorPosition.1 }

/-- The exit poll after a handled event: on `Ok(Some(status))` the code is
0 if the child succeeded and 1 otherwise, an Exit frame is sent best-effort
and the loop returns the code. -/
def afterPoll (s : BridgeState) (out : List ClientMessage) (exited : Option Bool) :
    BridgeState × List ClientMessage × Option BridgeOutcome :=
  match exited with
  | some su => (s, out ++ [.exitMsg (if su then 0 else 1)], some (.exited (if su then 0 else 1)))
  | none => (s, out, none)

/-- One iteration of the `Bridge::run` select loop. -/
def bridgeStep (proc : VtState → List Nat → VtState) (s : BridgeState) (inp : BridgeInput) :
    BridgeState × List ClientMessage × Option BridgeOutcome :=
  match inp.ev with
  | .ptyChunk d =>
    let vt2 := proc s.vt d
    if s.paused then
      afterPoll { s with vt := vt2, buffer := s.buffer ++ [d] } [] inp.exited
    else
      afterPoll { s with vt := vt2 } [.output d] inp.exited
  | .ptyClosed => (s, [], some .ptyEof)
  | .relayMsg m =>
    match m with
    | .input _ => afterPoll s [] inp.exited
    | .resize sz => afterPoll { s with vt := vtSetSize s.vt sz.rows sz.cols } [] inp.exited
    | .pause => afterPoll { s with paused := true } [] inp.exited
    | .resume =>
      afterPoll { s with paused := false, buffer := [] }
        (s.buffer.map ClientMessage.output) inp.exited
    | .requestSnapshot q => afterPoll s [.snapshot (createSnapshot s.vt q.requestId)] inp.exited
  | .relayClosed => (s, [], some .disconnected)

/-- `Bridge::run`: consume iteration inputs until one makes the loop
return. -/
def bridgeRun (proc : VtState → List Nat → VtState) :
    BridgeState → List BridgeInput → BridgeState × List ClientMessage × Option BridgeOutcome
  | s, [] => (s, [], none)
  | s, i :: rest =>
    match bridgeStep proc s i with
    | (s2, out, some r) => (s2, out, some r)
    | (s2, out, none) =>
      let t := bridgeRun proc s2 rest
      (t.1, out ++ t.2.1, t.2.2)

/-- Concatenated payloads of the Output frames of a sent-frame list, in
order. -/
def outputPayloads : List ClientMessage → List Nat
  | [] => []
  | .output d :: rest => d ++ outputPayloads rest
  | _ :: rest => outputPayloads rest

/-- Concatenated payloads of the PTY chunks of an input list, in order. -/
def chunkBytes : List BridgeInput → List Nat
  | [] => []
  | ⟨.ptyChunk d, _⟩ :: rest => d ++ chunkBytes rest
  | _ :: rest => chunkBytes rest

/-- An iteration input of the C1 scenario: a PTY chunk or a Pause/Resume
frame, with the child still running. -/
def c1Input : BridgeInput → Prop
  | ⟨.ptyChunk _, none⟩ => True
  | ⟨.relayMsg .pause, none⟩ => True
  | ⟨.relayMsg .resume, none⟩ => True
  | _ => False

theorem outputPayloads_append (a b : List ClientMessage) :
    outputPayloads (a ++ b) = outputPayloads a ++ outputPayloads b := by
  induction a with
  | nil => simp [outputPayloads]
  | cons hd tl ih =>
    cases hd <;> simp [outputPayloads, ih]

theorem outputPayloads_map_output (l : List (List Nat)) :
    outputPayloads (l.map ClientMessage.output) = l.flatten := by
  induction l with
  | nil => rfl
  | cons hd tl ih => simp [outputPayloads, ih]

theorem bridgeRun_cons_none (proc : VtState → List Nat → VtState) (s : BridgeState)
    (i : BridgeInput) (rest : List BridgeInput) (s2 : BridgeState) (out : List ClientMessage)
    (h : bridgeStep proc s i = (s2, out, none)) :
    bridgeRun proc s (i :: rest)
      = ((bridgeRun proc s2 rest).1, out ++ (bridgeRun proc s2 rest).2.1,
         (bridgeRun proc s2 rest).2.2) := by
  rw [bridgeRun, h]

theorem c1_aux (proc : VtState → List Nat → VtState) (inputs : List BridgeInput) :
    ∀ s : BridgeState, (∀ i ∈ inputs, c1Input i) → (s.paused = false → s.buffer = []) →
    (bridgeRun proc s inputs).2.2 = none
    ∧ outputPayloads (bridgeRun proc s inputs).2.1 ++ ((bridgeRun proc s inputs).1).buffer.flatten
      = s.buffer.flatten ++ chunkBytes inputs
    ∧ (((bridgeRun proc s inputs).1).paused = false → ((bridgeRun proc s inputs).1).buffer = []) := by
  induction inputs with
  | nil =>
    intro s _ hwf
    refine ⟨rfl, ?_, hwf⟩
    simp [bridgeRun, outputPayloads, chunkBytes]
  | cons i rest ih =>
    intro s hall hwf
    have hi : c1Input i := hall i (by simp)
    have hrest : ∀ j ∈ rest, c1Input j := fun j hj => hall j (by simp [hj])
    obtain ⟨ev, ex⟩ := i
    cases ev with
    | ptyChunk d =>
      cases ex with
      | some b => exact absurd hi (by simp [c1Input])
      | none =>
        by_cases hp : s.paused
        · have hstep : bridgeStep proc s ⟨.ptyChunk d, none⟩
              = ({ s with vt := proc s.vt d, buffer := s.buffer ++ [d] }, [], none) := by
            simp [bridgeStep, afterPoll, hp]
          have h2 := ih { s with vt := proc s.vt d, buffer := s.buffer ++ [d] } hrest
            (by intro h; rw [hp] at h; cases h)
          rw [bridgeRun_cons_none proc s _ rest _ _ hstep]
          refine ⟨h2.1, ?_, h2.2.2⟩
          simp only [List.nil_append]
          rw [h2.2.1]
          simp [chunkBytes]
        · have hp2 : s.paused = false := by simpa using hp
          have hbuf : s.buffer = [] := hwf hp2
          have hstep : bridgeStep proc s ⟨.ptyChunk d, none⟩
              = ({ s with vt := proc s.vt d }, [.output d], none) := by
            simp [bridgeStep, afterPoll, hp2]
          have h2 := ih { s with vt := proc s.vt d } hrest (by intro _; exact hbuf)
          rw [bridgeRun_cons_none proc s _ rest _ _ hstep]
          refine ⟨h2.1, ?_, h2.2.2⟩
          have e : outputPayloads [ClientMessage.output d] = d := by simp [outputPayloads]
          rw [outputPayloads_append, e, List.append_assoc, h2.2.1]
          simp [chunkBytes, hbuf]
    | ptyClosed => exact absurd hi (by simp [c1Input])
    | relayMsg m =>
      cases m with
      | input d => exact absurd hi (by simp [c1Input])
      | resize sz => exact absurd hi (by simp [c1Input])
      | pause =>
        cases ex with
        | some b => exact absurd hi (by simp [c1Input])
        | none =>
          have hstep : bridgeStep proc s ⟨.relayMsg .pause, none⟩
              = ({ s with paused := true }, [], none) := by
            simp [bridgeStep, afterPoll]
          have h2 := ih { s with paused := true } hrest (by intro h; cases h)
          rw [bridgeRun_cons_none proc s _ rest _ _ hstep]
          refine ⟨h2.1, ?_, h2.2.2⟩
          simp only [List.nil_append]
          rw [h2.2.1]
          simp [chunkBytes]
      | resume =>
        cases ex with
        | some b => exact absurd hi (by simp [c1Input])
        | none =>
          have hstep : bridgeStep proc s ⟨.relayMsg .resume, none⟩
              = ({ s with paused := false, buffer := [] },
                 s.buffer.map ClientMessage.output, none) := by
            simp [bridgeStep, afterPoll]
          have h2 := ih { s with paused := false, buffer := [] } hrest (by intro _; rfl)
          rw [bridgeRun_cons_none proc s _ rest _ _ hstep]
          refine ⟨h2.1, ?_, h2.2.2⟩
          rw [outputPayloads_append, outputPayloads_map_output, List.append_assoc, h2.2.1]
          simp [chunkBytes]
      | requestSnapshot q => exact absurd hi (by simp [c1Input])
    | relayClosed => exact absurd hi (by simp [c1Input])

/-- C1: for every finite sequence of PTY chunks interleaved with Pause and
Resume frames (child still running), the concatenated payloads of the
enqueued Output frames followed by the still-buffered backlog equal the
concatenated PTY chunks; in particular, whenever the run ends unpaused the
backlog is empty and the Output payloads alone equal the PTY bytes — paused
chunks go to the backlog and Resume flushes it in FIFO order before any
later Output. -/
theorem c1_bridge_output_ordering (proc : VtState → List Nat → VtState)
    (vt : VtState) (inputs : List BridgeInput) (h : ∀ i ∈ inputs, c1Input i) :
    outputPayloads (bridgeRun proc ⟨false, [], vt⟩ inputs).2.1
      ++ ((bridgeRun proc ⟨false, [], vt⟩ inputs).1).buffer.flatten = chunkBytes inputs
    ∧ (((bridgeRun proc ⟨false, [], vt⟩ inputs).1).paused = false →
      outputPayloads (bridgeRun proc ⟨false, [], vt⟩ inputs).2.1 = chunkBytes inputs) := by
  have h2 := c1_aux proc inputs ⟨false, [], vt⟩ h (fun _ => rfl)
  have e1 := h2.2.1
  simp only [List.flatten] at e1
  rw [List.nil_append] at e1
  refine ⟨e1, fun hp => ?_⟩
  have hbuf := h2.2.2 hp
  rw [hbuf] at e1
  simpa using e1

theorem c1_bridge_output_ordering_witness :
    outputPayloads (bridgeRun (fun v _ => v) ⟨false, [], ⟨24, 80, 0, 0, []⟩⟩
        [⟨.ptyChunk [97], none⟩, ⟨.relayMsg .pause, none⟩, ⟨.ptyChunk [98], none⟩,
         ⟨.relayMsg .resume, none⟩, ⟨.ptyChunk [99], none⟩]).2.1
      ++ ((bridgeRun (fun v _ => v) ⟨false, [], ⟨24, 80, 0, 0, []⟩⟩
        [⟨.ptyChunk [97], none⟩, ⟨.relayMsg .pause, none⟩, ⟨.ptyChunk [98], none⟩,
         ⟨.relayMsg .resume, none⟩, ⟨.ptyChunk [99], none⟩]).1).buffer.flatten
      = chunkBytes [⟨.ptyChunk [97], none⟩, ⟨.relayMsg .pause, none⟩, ⟨.ptyChunk [98], none⟩,
         ⟨.relayMsg .resume, none⟩, ⟨.ptyChunk [99], none⟩]
    ∧ (((bridgeRun (fun v _ => v) ⟨false, [], ⟨24, 80, 0, 0, []⟩⟩
        [⟨.ptyChunk [97], none⟩, ⟨.relayMsg .pause, none⟩, ⟨.ptyChunk [98], none⟩,
         ⟨.relayMsg .resume, none⟩, ⟨.ptyChunk [99], none⟩]).1).paused = false →
      outputPayloads (bridgeRun (fun v _ => v) ⟨false, [], ⟨24, 80, 0, 0, []⟩⟩
        [⟨.ptyChunk [97], none⟩, ⟨.relayMsg .pause, none⟩, ⟨.ptyChunk [98], none⟩,
         ⟨.relayMsg .resume, none⟩, ⟨.ptyChunk [99], none⟩]).2.1
        = chunkBytes [⟨.ptyChunk [97], none⟩, ⟨.relayMsg .pause, none⟩, ⟨.ptyChunk [98], none⟩,
         ⟨.relayMsg .resume, none⟩, ⟨.ptyChunk [99], none⟩]) :=
  c1_bridge_output_ordering (fun v _ => v) ⟨24, 80, 0, 0, []⟩
    [⟨.ptyChunk [97], none⟩, ⟨.relayMsg .pause, none⟩, ⟨.ptyChunk [98], none⟩,
     ⟨.relayMsg .resume, none⟩, ⟨.ptyChunk [99], none⟩]
    (by intro i hi; simp at hi; rcases hi with rfl | rfl | rfl | rfl | rfl <;> trivial)

/-- C9: handling `RequestSnapshot(id)` while the child is running emits
exactly one frame, a Snapshot carrying the same id, with `cols`/`rows` the
emulator's current size, `cursorX` the emulator cursor column and `cursorY`
the cursor row (not swapped), and it leaves the full bridge state — the
paused flag and the buffered backlog included — unchanged. -/
theorem c9_snapshot_request (proc : VtState → List Nat → VtState)
    (s : BridgeState) (rid : List Nat) :
    bridgeStep proc s ⟨.relayMsg (.requestSnapshot ⟨rid⟩), none⟩
      = (s, [.snapshot ⟨rid, s.vt.contents, s.vt.cols, s.vt.rows,
          s.vt.cursorCol, s.vt.cursorRow⟩], none) := rfl


/-! ## Reconnection backoff (`control.rs::ReconnectManager`)

Delays are modelled in whole seconds.  `2u32.pow(attempt)` is release-mode
Rust: the power is reduced modulo `2^32`. -/

/-- `ReconnectManager` — base delay, cap, and the `u32` attempt counter. -/
structure ReconnectManager where
  baseDelay : Nat
  maxDelay : Nat
  currentAttempt : Nat
deriving DecidableEq

/-- `ReconnectManager::new()` — base 1 s, cap 60 s, counter 0. -/
def ReconnectManager.new : ReconnectManager := ⟨1, 60, 0⟩

/-- `next_delay()` — `min(base_delay * 2u32.pow(attempt), max_delay)`, then
`attempt += 1`; the `u32` power and the counter increment wrap modulo
`2^32` (release-mode Rust), while the `Duration * u32` product does not. -/
def ReconnectManager.next_delay (m : ReconnectManager) : Nat × ReconnectManager :=
  (min (m.baseDelay * (2 ^ m.currentAttempt % 2 ^ 32)) m.maxDelay,
   { m with currentAttempt := (m.currentAttempt + 1) % 2 ^ 32 })

/-- `reset()` — zero the attempt counter. -/
def ReconnectManager.reset (m : ReconnectManager) : ReconnectManager :=
  { m with currentAttempt := 0 }

/-- `attempts()` — the current attempt counter. -/
def ReconnectManager.attempts (m : ReconnectManager) : Nat := m.currentAttempt

/-- The delay returned by the `k+1`-st call to `next_delay` starting from
state `m`. -/
def nthDelay (m : ReconnectManager) : Nat → Nat
  | 0 => (m.next_delay).1
  | k + 1 => nthDelay (m.next_delay).2 k

theorem nthDelay_eq (k : Nat) : ∀ m : ReconnectManager, m.currentAttempt + k < 2 ^ 32 →
    nthDelay m k = min (m.baseDelay * (2 ^ (m.currentAttempt + k) % 2 ^ 32)) m.maxDelay := by
  induction k with
  | zero =>
    intro m _
    simp [nthDelay, ReconnectManager.next_delay]
  | succ k ih =>
    intro m hm
    show nthDelay (m.next_delay).2 k = _
    have e1 : (m.next_delay).2 = { m with currentAttempt := (m.currentAttempt + 1) % 2 ^ 32 } := rfl
    have h1 : m.currentAttempt + 1 < 2 ^ 32 := by omega
    rw [e1, ih _ (by simp [Nat.mod_eq_of_lt h1]; omega)]
    simp only [Nat.mod_eq_of_lt h1]
    have : m.currentAttempt + 1 + k = m.currentAttempt + (k + 1) := by omega
    rw [this]



/-! ## The per-terminal supervisor (`terminal_manager.rs::run_terminal_task`)

Each loop iteration makes one connection attempt and is summarised by one
event; the iteration carries the fate of the connect, of `bridge.run`, of
the shutdown signal, and of the `is_pty_alive` check that the fall-through
path makes.  `su` on an event records the actual `success()` of the child's
exit status — the dead-after-disconnect paths never read it. -/

inductive TermEvent where
  /-- Connect failed, PTY still alive, the backoff sleep ran to completion. -/
  | connectFailAliveSleep
  /-- Connect failed, PTY still alive, shutdown fired during the wait. -/
  | connectFailAliveShutdown
  /-- Connect failed and the PTY was found dead (child status `su`). -/
  | connectFailDead (su : Bool)
  /-- Connected and `bridge.run` returned `Ok(Some(code))`; the bridge's code
  is 0 when the child succeeded (`su`), else 1. -/
  | runExited (su : Bool)
  /-- Connected and shutdown fired while the bridge ran. -/
  | runShutdown
  /-- Connected, the bridge lost the data connection (or erred), the PTY was
  still alive, and the backoff sleep ran to completion. -/
  | runDisconnAliveSleep
  /-- Connected, disconnect, PTY alive, shutdown fired during the wait. -/
  | runDisconnAliveShutdown
  /-- Connected, disconnect, and the PTY was found dead (child status `su`). -/
  | runDisconnDead (su : Bool)
deriving DecidableEq

/-- One iteration of `run_terminal_task`'s loop on reconnect delay `d`
(seconds): the new delay, the completed sleeps, and `some code` when the
task returns.  A successful connect resets the delay to 1 s before the
bridge runs; a completed sleep doubles it, capped at 30 s. -/
def termStep (d : Nat) : TermEvent → Nat × List Nat × Option Int
  | .connectFailAliveSleep => (min (d * 2) 30, [d], none)
  | .connectFailAliveShutdown => (d, [], some 0)
  | .connectFailDead _ => (d, [], some 1)
  | .runExited su => (1, [], some (if su then 0 else 1))
  | .runShutdown => (1, [], some 0)
  | .runDisconnAliveSleep => (min (1 * 2) 30, [1], none)
  | .runDisconnAliveShutdown => (1, [], some 0)
  | .runDisconnDead _ => (1, [], some 1)

/-- The supervisor loop from delay `d`: consume events until one returns. -/
def runTerminalTaskGo : Nat → List TermEvent → Nat × List Nat × Option Int
  | d, [] => (d, [], none)
  | d, e :: rest =>
    match termStep d e with
    | (d2, slept, some c) => (d2, slept, some c)
    | (d2, slept, none) =>
      let t := runTerminalTaskGo d2 rest
      (t.1, slept ++ t.2.1, t.2.2)

/-- `run_terminal_task` — the loop starts with a 1 s reconnect delay. -/
def runTerminalTask (events : List TermEvent) : Nat × List Nat × Option Int :=
  runTerminalTaskGo 1 events



/-- C7 (corrected): the control-level backoff (base 1 s, cap 60 s) follows
`min(2^(n-1), 60)` only for the first 32 calls after a reset; from the 33rd
call `2u32.pow(attempt)` has wrapped to 0 and the delay is 0 s, not the cap.
`next_delay` increments the `u32` attempt counter and `reset` zeros it.  The
per-terminal loop starts at 1 s, doubles a completed sleep's delay with a
30 s cap, and a successful connect resets the delay to 1 s (so the sleep
after a later disconnect is 1 s and the next delay 2 s). -/
theorem c7_reconnect_backoff :
    (∀ n : Nat, 1 ≤ n → n ≤ 32 →
      nthDelay ReconnectManager.new.reset (n - 1) = min (2 ^ (n - 1)) 60)
    ∧ (∀ n : Nat, 33 ≤ n → n ≤ 2 ^ 32 → nthDelay ReconnectManager.new.reset (n - 1) = 0)
    ∧ (∀ m : ReconnectManager, ((m.next_delay).2).currentAttempt = (m.currentAttempt + 1) % 2 ^ 32)
    ∧ (∀ m : ReconnectManager, (m.reset).attempts = 0)
    ∧ (∀ d : Nat, termStep d .connectFailAliveSleep = (min (d * 2) 30, [d], none))
    ∧ (∀ d : Nat, termStep d .runDisconnAliveSleep = (2, [1], none))
    ∧ runTerminalTask [] = (1, [], none) := by
  refine ⟨?_, ?_, fun m => rfl, fun m => rfl, fun d => rfl, fun d => rfl, rfl⟩
  · intro n h1 h2
    have hb : ReconnectManager.new.reset.currentAttempt + (n - 1) < 2 ^ 32 := by
      show 0 + (n - 1) < 2 ^ 32
      have : (32 : Nat) < 2 ^ 32 := by norm_num
      omega
    rw [nthDelay_eq (n - 1) ReconnectManager.new.reset hb]
    show min (1 * (2 ^ (0 + (n - 1)) % 2 ^ 32)) 60 = _
    have hlt : 2 ^ (n - 1) < 2 ^ 32 := Nat.pow_lt_pow_right (by norm_num) (by omega)
    rw [Nat.zero_add, Nat.one_mul, Nat.mod_eq_of_lt hlt]
  · intro n h1 h2
    have hb : ReconnectManager.new.reset.currentAttempt + (n - 1) < 2 ^ 32 := by
      show 0 + (n - 1) < 2 ^ 32
      omega
    rw [nthDelay_eq (n - 1) ReconnectManager.new.reset hb]
    show min (1 * (2 ^ (0 + (n - 1)) % 2 ^ 32)) 60 = 0
    have hd : (2 : Nat) ^ 32 ∣ 2 ^ (n - 1) := pow_dvd_pow 2 (by omega)
    have h0 : 2 ^ (n - 1) % 2 ^ 32 = 0 := Nat.mod_eq_zero_of_dvd hd
    rw [Nat.zero_add, Nat.one_mul, h0]
    simp



theorem c7_reconnect_backoff_witness :
    nthDelay ReconnectManager.new.reset 6 = min (2 ^ 6) 60
    ∧ nthDelay ReconnectManager.new.reset 32 = 0 :=
  ⟨by
    have h := c7_reconnect_backoff.1 7 (by norm_num) (by norm_num)
    simpa using h,
   by
    have h := c7_reconnect_backoff.2.1 33 (by norm_num) (by norm_num)
    simpa using h⟩

/-- Modelled from the spec: the original backoff formula — after a reset the
nth call to `next_delay` returns `min(base * 2^(n-1), max)`. -/
def c7SpecFormula : Prop :=
  ∀ m : ReconnectManager, ∀ n : Nat, 1 ≤ n →
    nthDelay m.reset (n - 1) = min (m.baseDelay * 2 ^ (n - 1)) m.maxDelay

theorem c7_backoff_formula_counterexample : ¬ c7SpecFormula := by
  intro h
  have h33 := h ReconnectManager.new 33 (by norm_num)
  have hl : nthDelay ReconnectManager.new.reset (33 - 1) = 0 := by decide
  rw [hl] at h33
  simp [ReconnectManager.new] at h33



/-- The event on which the supervisor loop returns does not depend on the
delay; this is the first event of the trace whose step carries an outcome. -/
def terminatingEvent : List TermEvent → Option TermEvent
  | [] => none
  | e :: rest =>
    match (termStep 1 e).2.2 with
    | some _ => some e
    | none => terminatingEvent rest

/-- Shutdown paths the user initiated (`close_terminal` / `shutdown_all`
fire the terminal's shutdown signal). -/
def specUserInitiated : TermEvent → Bool
  | .runShutdown => true
  | .connectFailAliveShutdown => true
  | .runDisconnAliveShutdown => true
  | _ => false

/-- Whether the child's actual exit status was a success on the paths where
the child has exited. -/
def specChildSucceeded : TermEvent → Bool
  | .runExited su => su
  | .runDisconnDead su => su
  | .connectFailDead su => su
  | _ => false

/-- Modelled from the spec: the claimed exit-code law — whenever the task
returns a code, the code is 0 iff the child exited successfully or the
shutdown was user-initiated, and 1 otherwise. -/
def c3SpecClaim : Prop :=
  ∀ events : List TermEvent, ∀ e : TermEvent, ∀ c : Int,
    (runTerminalTask events).2.2 = some c →
    terminatingEvent events = some e →
    (c = 0 ↔ (specChildSucceeded e || specUserInitiated e) = true)

/-- C3 counterexample: a data-channel disconnect followed by finding the PTY
dead makes the task return 1 even when the child's exit status was a
success — the spec's "0 iff child succeeded or user-initiated" fails. -/
theorem c3_exit_code_counterexample : ¬ c3SpecClaim := by
  intro h
  have h1 := h [.runDisconnDead true] (.runDisconnDead true) 1 rfl rfl
  simp [specChildSucceeded] at h1

/-- C3 (corrected): on `try_wait` reporting an exit, the bridge's Exit frame
and returned code are 0 if the child succeeded and 1 otherwise; the
supervising task returns that code when the bridge saw the exit, returns 0
on every shutdown-signal path, and returns 1 whenever the PTY is found dead
after a disconnect or failed connect — in the latter case regardless of the
child's actual exit status, which is where the original "0 iff child
succeeded or user-initiated" biconditional fails. -/
theorem c3_exit_codes :
    (∀ (s : BridgeState) (out : List ClientMessage) (su : Bool),
      afterPoll s out (some su)
        = (s, out ++ [.exitMsg (if su then 0 else 1)], some (.exited (if su then 0 else 1))))
    ∧ (∀ (d : Nat) (su : Bool), termStep d (.runExited su) = (1, [], some (if su then 0 else 1)))
    ∧ (∀ d : Nat, termStep d .runShutdown = (1, [], some 0))
    ∧ (∀ d : Nat, termStep d .connectFailAliveShutdown = (d, [], some 0))
    ∧ (∀ d : Nat, termStep d .runDisconnAliveShutdown = (1, [], some 0))
    ∧ (∀ (d : Nat) (su : Bool), termStep d (.runDisconnDead su) = (1, [], some 1))
    ∧ (∀ (d : Nat) (su : Bool), termStep d (.connectFailDead su) = (d, [], some 1)) :=
  ⟨fun _ _ _ => rfl, fun _ _ => rfl, fun _ => rfl, fun _ => rfl,
   fun _ => rfl, fun _ _ => rfl, fun _ _ => rfl⟩



/-! ## The terminal manager (`terminal_manager.rs`)

The `terminals` map is an association list keyed by terminal name; an entry
keeps whether its shutdown sender is still present (`shutdown_tx:
Option<oneshot::Sender<()>>`).  Spawning is effectful, so `start_terminal`
takes the spawn attempt's result as an argument. -/

/-- One entry of the `terminals` map. -/
structure TerminalEntry where
  shutdownTx : Bool
deriving DecidableEq

/-- The value bound to a name in the map. -/
def mapLookup (ts : List (List Nat × TerminalEntry)) (name : List Nat) : Option TerminalEntry :=
  match ts with
  | [] => none
  | (k, e) :: rest => if k = name then some e else mapLookup rest name

/-- `HashMap::remove`'s effect on the entries. -/
def mapRemove (ts : List (List Nat × TerminalEntry)) (name : List Nat) :
    List (List Nat × TerminalEntry) :=
  ts.filter (fun p => ¬ p.1 = name)

/-- `TerminalManager::start_terminal`: spawn the PTY first — a spawn failure
returns the error before the map is touched; otherwise the PID names the
terminal, a duplicate name is an error, and the entry is inserted with a
fresh shutdown sender. -/
def start_terminal (ts : List (List Nat × TerminalEntry))
    (spawnResult : Except (List Nat) Nat) :
    List (List Nat × TerminalEntry) × Except (List Nat) (List Nat) :=
  match spawnResult with
  | .error e => (ts, .error e)
  | .ok pid =>
    let name := natAscii pid
    if (mapLookup ts name).isSome then (ts, .error (ascii "terminal already exists"))
    else ((name, ⟨true⟩) :: ts, .ok name)

/-- `TerminalManager::close_terminal(name, signal)`: remove the entry and
fire its shutdown sender if still present; an unknown name is an error.  The
`signal` argument appears only in a log line — it reaches no child
process. -/
def close_terminal (ts : List (List Nat × TerminalEntry)) (name : List Nat)
    (signal : Option Int) :
    List (List Nat × TerminalEntry) × Bool × Bool :=
  match mapLookup ts name with
  | some entry => (mapRemove ts name, true, entry.shutdownTx)
  | none => (ts, false, false)

/-- The control-loop dispatch of `StartTerminal` (`main.rs`): on success a
`TerminalStarted{success=true}`, on failure `success=false` with the error's
message, both carrying the request's id. -/
def handleStartTerminal (ts : List (List Nat × TerminalEntry))
    (spawnResult : Except (List Nat) Nat) (name rid : List Nat) :
    List (List Nat × TerminalEntry) × ControlResponse :=
  match start_terminal ts spawnResult with
  | (ts2, .ok _) => (ts2, .terminalStarted name rid true none)
  | (ts2, .error e) => (ts2, .terminalStarted name rid false (some e))

/-- C6: if the PTY spawn fails during `start_terminal`, the terminals map is
returned unchanged — no entry added — and the agent answers with
`TerminalStarted` carrying `success=false`, the original `requestId` and the
spawn error's message. -/
theorem c6_spawn_failure (ts : List (List Nat × TerminalEntry)) (e name rid : List Nat) :
    start_terminal ts (.error e) = (ts, .error e)
    ∧ handleStartTerminal ts (.error e) name rid
      = (ts, .terminalStarted name rid false (some e)) :=
  ⟨rfl, rfl⟩

/-- C10: `close_terminal` never reads its `signal` argument: two calls from
the same map state that differ only in the signal — absent included — return
the same result, the same resulting map and the same shutdown-signal fire;
no signal is ever delivered to the child process. -/
theorem c10_close_terminal_signal_independent
    (ts : List (List Nat × TerminalEntry)) (name : List Nat) (s1 s2 : Option Int) :
    close_terminal ts name s1 = close_terminal ts name s2 := rfl



/-! ## PTY spawning (`pty.rs::PtyHandle::spawn`)

`spawn(shell, args)` opens the PTY at the default window size, builds the
child command from the parent's environment (each `cmd.env` call appends a
binding; a later binding for the same key wins), adds
`TERM=xterm-256color` only when the parent has no `TERM`, and sets the
child's working directory to `std::env::current_dir()` — the function takes
no working-directory argument at all.  The ambient process state (parent
environment, current directory) is passed in as arguments. -/

def DEFAULT_COLS : Nat := 80

def DEFAULT_ROWS : Nat := 24

/-- The value a key has after a list of `cmd.env` calls: the last binding
wins. -/
def envValue (env : List (List Nat × List Nat)) (key : List Nat) : Option (List Nat) :=
  match env with
  | [] => none
  | (k, v) :: rest =>
    match envValue rest key with
    | some w => some w
    | none => if k = key then some v else none

/-- What `spawn` configures for the child. -/
structure SpawnConfig where
  rows : Nat
  cols : Nat
  cwd : Option (List Nat)
  childEnv : List (List Nat × List Nat)
deriving DecidableEq

/-- `PtyHandle::spawn`'s configuration, as a function of the parent
environment and `std::env::current_dir()`. -/
def ptySpawnConfig (parentEnv : List (List Nat × List Nat))
    (currentDir : Option (List Nat)) : SpawnConfig :=
  { rows := DEFAULT_ROWS
    cols := DEFAULT_COLS
    cwd := currentDir
    childEnv := parentEnv ++
      (match envValue parentEnv (ascii "TERM") with
       | some _ => []
       | none => [(ascii "TERM", ascii "xterm-256color")]) }

theorem envValue_append_last (l : List (List Nat × List Nat)) (key v : List Nat) :
    envValue (l ++ [(key, v)]) key = some v := by
  induction l with
  | nil => simp [envValue]
  | cons hd tl ih =>
    obtain ⟨k, w⟩ := hd
    rw [List.cons_append, envValue, ih]

theorem envValue_append_nil (l : List (List Nat × List Nat)) (key : List Nat) :
    envValue (l ++ []) key = envValue l key := by
  rw [List.append_nil]

/-- C8 (what `pty.rs` actually does): the PTY window opens at 80×24; the
child's `TERM` is the parent's when set and `xterm-256color` exactly when
the parent has none; and the child's working directory is the agent
process's current directory — `spawn` has no working-directory parameter,
so the directory the terminal manager was configured with cannot reach
it. -/
theorem c8_pty_spawn :
    (∀ parentEnv currentDir, (ptySpawnConfig parentEnv currentDir).cols = DEFAULT_COLS
      ∧ (ptySpawnConfig parentEnv currentDir).rows = DEFAULT_ROWS)
    ∧ (∀ parentEnv currentDir v, envValue parentEnv (ascii "TERM") = some v →
      envValue (ptySpawnConfig parentEnv currentDir).childEnv (ascii "TERM") = some v)
    ∧ (∀ parentEnv currentDir, envValue parentEnv (ascii "TERM") = none →
      envValue (ptySpawnConfig parentEnv currentDir).childEnv (ascii "TERM")
        = some (ascii "xterm-256color"))
    ∧ (∀ parentEnv currentDir, (ptySpawnConfig parentEnv currentDir).cwd = currentDir) := by
  refine ⟨fun _ _ => ⟨rfl, rfl⟩, ?_, ?_, fun _ _ => rfl⟩
  · intro parentEnv currentDir v hv
    show envValue (parentEnv ++ _) _ = _
    rw [hv]
    rw [envValue_append_nil, hv]
  · intro parentEnv currentDir hv
    show envValue (parentEnv ++ _) _ = _
    rw [hv]
    rw [envValue_append_last]

theorem c8_pty_spawn_witness :
    envValue (ptySpawnConfig [(ascii "HOME", ascii "/root")] (some (ascii "/root"))).childEnv
        (ascii "TERM") = some (ascii "xterm-256color")
    ∧ (ptySpawnConfig [(ascii "HOME", ascii "/root")] (some (ascii "/root"))).cwd
        = some (ascii "/root") :=
  ⟨c8_pty_spawn.2.2.1 [(ascii "HOME", ascii "/root")] (some (ascii "/root")) rfl,
   c8_pty_spawn.2.2.2 [(ascii "HOME", ascii "/root")] (some (ascii "/root"))⟩



/-! ## Connection setup (`relay.rs`, `control.rs`)

Both connectors send a handshake on the freshly opened socket before
spawning the tasks that send anything else; the writes a connection makes
are the handshake followed by the encodings of whatever the send task later
drains from its queue. -/

/-- The byte frames written on a data connection, in order: the Handshake
frame first (sent inline in `RelayConnection::connect`), then the queued
bridge messages in queue order. -/
def dataConnectWrites (h : HandshakeMessage) (queued : List ClientMessage) : List (List Nat) :=
  ClientMessage.encode (.handshake h) :: queued.map ClientMessage.encode

/-- A command the control send-loop turns into a frame. -/
inductive ControlCommand where
  | cmdTerminalStarted (name rid : List Nat) (success : Bool) (err : Option (List Nat))
  | cmdTerminalClosed (name : List Nat) (exitCode : Int)
  | cmdShutdown
deriving DecidableEq

/-- The frames the control send-loop writes for a command queue: responses
in order; `Shutdown` sends a close frame and stops the loop. -/
def controlCmdFrames : List ControlCommand → List (List Nat)
  | [] => []
  | .cmdTerminalStarted n q su er :: rest =>
    ControlResponse.encode (.terminalStarted n q su er) :: controlCmdFrames rest
  | .cmdTerminalClosed n c :: rest =>
    ControlResponse.encode (.terminalClosed n c) :: controlCmdFrames rest
  | .cmdShutdown :: _ => []

/-- The frames written on a control connection, in order: the
ControlHandshake first (sent inline in `ControlConnection::connect`), then
the command frames. -/
def controlConnectWrites (v hn u w : List Nat) (cmds : List ControlCommand) : List (List Nat) :=
  ControlResponse.encode (.controlHandshake v hn u w) :: controlCmdFrames cmds

theorem bridgeStep_no_handshake (proc : VtState → List Nat → VtState)
    (s : BridgeState) (i : BridgeInput) :
    ∀ m ∈ (bridgeStep proc s i).2.1, ∀ hs, m ≠ .handshake hs := by
  obtain ⟨ev, ex⟩ := i
  have hpoll : ∀ (s2 : BridgeState) (out : List ClientMessage),
      (∀ m ∈ out, ∀ hs, m ≠ ClientMessage.handshake hs) →
      ∀ m ∈ (afterPoll s2 out ex).2.1, ∀ hs, m ≠ .handshake hs := by
    intro s2 out hout m hm hs
    cases ex with
    | none => exact hout m hm hs
    | some su =>
      simp only [afterPoll, List.mem_append, List.mem_singleton] at hm
      rcases hm with hm | rfl
      · exact hout m hm hs
      · simp
  cases ev with
  | ptyChunk d =>
    show ∀ m ∈ (if s.paused then _ else _ : _ × _ × _).2.1, _
    by_cases hp : s.paused
    · rw [if_pos hp]
      exact hpoll _ _ (by simp)
    · rw [if_neg hp]
      refine hpoll _ _ ?_
      intro m hm hs
      simp at hm
      subst hm
      simp
  | ptyClosed => simp [bridgeStep]
  | relayMsg msg =>
    cases msg with
    | input d => exact hpoll _ _ (by simp)
    | resize sz => exact hpoll _ _ (by simp)
    | pause => exact hpoll _ _ (by simp)
    | resume =>
      refine hpoll _ _ ?_
      intro m hm hs
      simp only [List.mem_map] at hm
      obtain ⟨d, _, rfl⟩ := hm
      simp
    | requestSnapshot q =>
      refine hpoll _ _ ?_
      intro m hm hs
      simp at hm
      subst hm
      simp
  | relayClosed => simp [bridgeStep]

theorem bridgeRun_no_handshake (proc : VtState → List Nat → VtState)
    (inputs : List BridgeInput) :
    ∀ s : BridgeState, ∀ m ∈ (bridgeRun proc s inputs).2.1, ∀ hs, m ≠ .handshake hs := by
  induction inputs with
  | nil =>
    intro s m hm
    simp [bridgeRun] at hm
  | cons i rest ih =>
    intro s m hm hs
    rw [bridgeRun] at hm
    rcases hstep : bridgeStep proc s i with ⟨s2, out, r⟩
    rw [hstep] at hm
    cases r with
    | some r0 =>
      simp only [] at hm
      have := bridgeStep_no_handshake proc s i
      rw [hstep] at this
      exact this m hm hs
    | none =>
      simp only [List.mem_append] at hm
      rcases hm with hm | hm
      · have := bridgeStep_no_handshake proc s i
        rw [hstep] at this
        exact this m hm hs
      · exact ih s2 m hm hs



theorem termStarted_take10 (n q : List Nat) (su : Bool) (er : Option (List Nat)) :
    (ControlResponse.encode (.terminalStarted n q su er)).take 10
      = [123, 34, 116, 121, 112, 101, 34, 58, 34, 116] := rfl

theorem termClosed_take10 (n : List Nat) (c : Int) :
    (ControlResponse.encode (.terminalClosed n c)).take 10
      = [123, 34, 116, 121, 112, 101, 34, 58, 34, 116] := rfl

theorem ctrlHs_take10 (v hn u w : List Nat) :
    (ControlResponse.encode (.controlHandshake v hn u w)).take 10
      = [123, 34, 116, 121, 112, 101, 34, 58, 34, 99] := rfl

theorem controlCmdFrames_no_handshake (cmds : List ControlCommand) :
    ∀ f ∈ controlCmdFrames cmds, ∀ v hn u w,
      f ≠ ControlResponse.encode (.controlHandshake v hn u w) := by
  induction cmds with
  | nil =>
    intro f hf
    simp [controlCmdFrames] at hf
  | cons c rest ih =>
    intro f hf v hn u w heq
    cases c with
    | cmdTerminalStarted n q su er =>
      rw [controlCmdFrames] at hf
      rcases List.mem_cons.mp hf with rfl | hf2
      · have h2 := congrArg (List.take 10) heq
        rw [termStarted_take10 n q su er, ctrlHs_take10 v hn u w] at h2
        simp at h2
      · exact ih f hf2 v hn u w heq
    | cmdTerminalClosed n cc =>
      rw [controlCmdFrames] at hf
      rcases List.mem_cons.mp hf with rfl | hf2
      · have h2 := congrArg (List.take 10) heq
        rw [termClosed_take10 n cc, ctrlHs_take10 v hn u w] at h2
        simp at h2
      · exact ih f hf2 v hn u w heq
    | cmdShutdown =>
      rw [controlCmdFrames] at hf
      simp at hf

/-- C5: on a data connection the Handshake frame is the first bytes written
on the socket — every later frame comes from the bridge, which never
enqueues a Handshake (so no Output, Exit or Snapshot frame precedes it);
and on a control connection the ControlHandshake is the first frame sent
and the send loop never writes another one, so it is sent at most once per
connection. -/
theorem c5_handshake_first :
    (∀ (h : HandshakeMessage) (queued : List ClientMessage),
      (dataConnectWrites h queued).head? = some (ClientMessage.encode (.handshake h)))
    ∧ (∀ (proc : VtState → List Nat → VtState) (s : BridgeState) (inputs : List BridgeInput),
      ∀ m ∈ (bridgeRun proc s inputs).2.1, ∀ hs, m ≠ .handshake hs)
    ∧ (∀ (v hn u w : List Nat) (cmds : List ControlCommand),
      (controlConnectWrites v hn u w cmds).head?
        = some (ControlResponse.encode (.controlHandshake v hn u w)))
    ∧ (∀ (v hn u w : List Nat) (cmds : List ControlCommand),
      ∀ f ∈ controlCmdFrames cmds, ∀ v2 h2 u2 w2,
        f ≠ ControlResponse.encode (.controlHandshake v2 h2 u2 w2)) :=
  ⟨fun _ _ => rfl,
   fun proc s inputs => bridgeRun_no_handshake proc inputs s,
   fun _ _ _ _ _ => rfl,
   fun _ _ _ _ cmds => controlCmdFrames_no_handshake cmds⟩

theorem c5_handshake_first_witness :
    (dataConnectWrites ⟨ascii "0.1.0", ascii "/bin/bash", some 80, some 24⟩
        [.output (ascii "hi")]).head?
      = some (ClientMessage.encode (.handshake ⟨ascii "0.1.0", ascii "/bin/bash", some 80, some 24⟩))
    ∧ (controlConnectWrites (ascii "0.1.0") (ascii "host") (ascii "user") (ascii "/w")
        [.cmdTerminalClosed (ascii "1234") 0]).head?
      = some (ControlResponse.encode
          (.controlHandshake (ascii "0.1.0") (ascii "host") (ascii "user") (ascii "/w"))) :=
  ⟨c5_handshake_first.1 ⟨ascii "0.1.0", ascii "/bin/bash", some 80, some 24⟩
      [.output (ascii "hi")],
   c5_handshake_first.2.2.1 (ascii "0.1.0") (ascii "host") (ascii "user") (ascii "/w")
      [.cmdTerminalClosed (ascii "1234") 0]⟩



/-! ## The data-channel receive loop (`relay.rs`) -/

/-- What the WebSocket stream can yield to the receive loop. -/
inductive WsIncoming where
  | binary (d : List Nat)
  | textFrame (d : List Nat)
  | ping (d : List Nat)
  | pong
  | closeFrame
  | wsErr
deriving DecidableEq

/-- The receive loop: binary and text frames are parsed with
`RelayMessage::parse`; a parse error is logged and the frame skipped; pings
and pongs are ignored; a Close frame or a WebSocket error breaks the loop.
Returns the forwarded messages and whether the loop broke on a Close frame
or socket error. -/
def dataRecvLoop : List WsIncoming → List RelayMessage × Bool
  | [] => ([], false)
  | .binary d :: rest =>
    (match RelayMessage.parse d with
     | .ok m => ((m :: (dataRecvLoop rest).1), (dataRecvLoop rest).2)
     | .error _ => dataRecvLoop rest)
  | .textFrame d :: rest =>
    (match RelayMessage.parse d with
     | .ok m => ((m :: (dataRecvLoop rest).1), (dataRecvLoop rest).2)
     | .error _ => dataRecvLoop rest)
  | .ping _ :: rest => dataRecvLoop rest
  | .pong :: rest => dataRecvLoop rest
  | .closeFrame :: _ => ([], true)
  | .wsErr :: _ => ([], true)

/-- C4: `RelayMessage::parse` errors on the empty byte string, on any first
byte outside `'0'..'4'`, and on a tag `'1'` or `'4'` frame whose payload the
JSON decoder rejects (not JSON at all, or not the required shape — the
decoder's error propagates); and the data-channel receive loop handles every
such parse error by skipping the frame and continuing exactly as if the
frame had not arrived — a parse error never closes the link. -/
theorem c4_parse_error_handling :
    RelayMessage.parse [] = .error "empty message"
    ∧ (∀ (b : Nat) (payload : List Nat), ¬ (48 ≤ b ∧ b ≤ 52) →
      ∃ e, RelayMessage.parse (b :: payload) = .error e)
    ∧ (∀ (payload : List Nat) (e : String), resizeDecode payload = .error e →
      RelayMessage.parse (49 :: payload) = .error e)
    ∧ (∀ (payload : List Nat) (e : String), snapshotReqDecode payload = .error e →
      RelayMessage.parse (52 :: payload) = .error e)
    ∧ (∀ payload : List Nat, jsonParse payload = none → ∃ e, resizeDecode payload = .error e)
    ∧ (∀ (d : List Nat) (rest : List WsIncoming) (e : String),
      RelayMessage.parse d = .error e →
      dataRecvLoop (.binary d :: rest) = dataRecvLoop rest
      ∧ dataRecvLoop (.textFrame d :: rest) = dataRecvLoop rest) := by
  refine ⟨rfl, ?_, ?_, ?_, ?_, ?_⟩
  · intro b payload hb
    refine ⟨"unknown message prefix: " ++ toString b, ?_⟩
    rw [RelayMessage.parse, if_neg (by omega), if_neg (by omega), if_neg (by omega),
      if_neg (by omega), if_neg (by omega)]
  · intro payload e h
    rw [RelayMessage.parse]
    norm_num
    rw [h, exm_err]
  · intro payload e h
    rw [RelayMessage.parse]
    norm_num
    rw [h, exm_err]
  · intro payload h
    refine ⟨"malformed JSON", ?_⟩
    rw [resizeDecode]
    have hj : jsonOrErr payload = .error "malformed JSON" := by
      unfold jsonOrErr
      rw [h]
    rw [hj, exb_err]
  · intro d rest e h
    constructor
    · simp only [dataRecvLoop, h]
    · simp only [dataRecvLoop, h]

theorem c4_parse_error_handling_witness :
    (∃ e, RelayMessage.parse (57 :: ascii "x") = .error e)
    ∧ dataRecvLoop [.binary (57 :: ascii "x")] = dataRecvLoop []
    ∧ (∃ e, resizeDecode (ascii "not json") = .error e) := by
  obtain ⟨e, he⟩ := c4_parse_error_handling.2.1 57 (ascii "x") (by omega)
  refine ⟨⟨e, he⟩, ?_, ?_⟩
  · exact (c4_parse_error_handling.2.2.2.2.2 (57 :: ascii "x") [] e he).1
  · exact c4_parse_error_handling.2.2.2.2.1 (ascii "not json") rfl

end Paircoded
